import Mathlib

/-!
# Fine-tuning workflow driver (`main.go`)

A shallow embedding of the command-line program that uploads a training file,
polls until the file is processed, creates a fine-tuning job, polls until the
job succeeded and prints the name of the fine-tuned model.

The program talks to a remote service.  The remote service, the local file
system and the two library calls that can fail before a request leaves the
process (`http.NewRequest`, the multipart writer) are gathered in a `World`.
The process starts from its command line, which `init` hands to `flag.Parse`.
Every function of the program is a function from the trace of events so far
to a result and the extended trace.  The two polling loops have no exit but
the terminal status, so they take a bound on the number of status checks
(`fuel`) and report whether they left the loop within that bound.
-/

namespace FineTune

/-! ## JSON values and the field extractor (library `gjson`) -/

/-- A JSON value found at a top-level key of a response body, by the kinds
that `gjson` distinguishes: `number` keeps the raw text and the rendering of
the parsed float (`strconv.FormatFloat(num, 'f', -1, 64)`), `json` keeps the
raw text of an object or an array. -/
inductive JValue where
  | null
  | jfalse
  | jtrue
  | number (raw : String) (formatted : String)
  | string (s : String)
  | json (raw : String)
deriving DecidableEq, Repr

/-- A response body, as the list of the top-level members that `gjson` finds
in its text, in the order of the text; the list is empty when it finds
none. -/
abbrev Body := List (String × JValue)

/-- The call `gjson.GetBytes(body, key)` for a plain key: the value of the
first member named `key`, or nothing when there is none. -/
def gjsonGet (body : Body) (key : String) : Option JValue :=
  match body with
  | [] => none
  | (k, v) :: rest => if k = key then some v else gjsonGet rest key

/-- The number case of `Result.String()`: the raw text when it is an optional
minus sign followed by digits only, the float rendering otherwise. -/
def numberString (raw formatted : String) : String :=
  match raw.toList with
  | [] => formatted
  | c :: cs =>
    if (if c = '-' then cs else c :: cs).all Char.isDigit then raw else formatted

/-- The method `Result.String()` of `gjson`: a value that does not exist and
`null` give the empty string. -/
def gjsonString : Option JValue → String
  | none => ""
  | some .null => ""
  | some .jfalse => "false"
  | some .jtrue => "true"
  | some (.number raw formatted) => numberString raw formatted
  | some (.string s) => s
  | some (.json raw) => raw

/-! ## Requests, outcomes, events -/

/-- The body of an outgoing request: none, the multipart form with one file
part, or the JSON object given to `json.Marshal` (a map of strings). -/
inductive ReqBody where
  | none
  | multipart (field : String) (filename : String) (content : String)
  | json (fields : List (String × String))
deriving DecidableEq, Repr

/-- An outgoing HTTP request. -/
structure Request where
  method : String
  url : String
  header : List (String × List String)
  body : ReqBody
deriving DecidableEq, Repr

/-- What the remote side does with a request that was sent: `client.Do` fails,
`io.ReadAll` of the response fails, or a body arrives. -/
inductive Reply where
  | sendErr
  | readErr
  | body (b : Body)
deriving DecidableEq, Repr

/-- The outcome of one pass through `http.NewRequest`, `client.Do`,
`io.ReadAll`. -/
inductive Outcome where
  | createErr
  | sendErr
  | readErr
  | body (b : Body)
deriving DecidableEq, Repr

/-- The place of the program a request comes from. -/
inductive Site where
  | upload
  | filePoll
  | jobCreate
  | jobPoll
  | retrieve
deriving DecidableEq, Repr

/-- The console messages of the program, one constructor per print
statement, and the three error lines of the flag library. -/
inductive Msg where
  | badFlagSyntax (arg : String)
  | flagNotDefined (name : String)
  | flagNeedsArgument (name : String)
  | failedToStart
  | usage
  | starting
  | failedCreateFormFile
  | failedOpenFile
  | failedCopy
  | failedCloseWriter
  | failedMarshal
  | failedCreateRequest
  | failedSend
  | failedRead
  | uploadFailed
  | fileUploaded (fileID : String)
  | waitingFile
  | newline
  | fileProcessingCompleted
  | startingJob
  | jobCreationFailed
  | jobCreated (jobID : String)
  | waitingJob
  | jobCompleted
  | elapsed
  | modelReady (model : String)
  | noModel
deriving DecidableEq, Repr

/-- The text of a message.  An argument that is a clock reading, the text of
a library error or the name of the program stays as its format verb; colours
are left out. -/
def Msg.text : Msg → String
  | .badFlagSyntax arg => "bad flag syntax: " ++ arg ++ "\n"
  | .flagNotDefined name => "flag provided but not defined: -" ++ name ++ "\n"
  | .flagNeedsArgument name => "flag needs an argument: -" ++ name ++ "\n"
  | .failedToStart => "[!] Failed to start.\n"
  | .usage =>
    "Usage of %s:\n  -file string\n    \tPath to the file\n  -token string\n    \tOpenAI API token\n"
  | .starting => "[!] Starting... Elapsed Time: 0.00 seconds\n"
  | .failedCreateFormFile => "Failed to create form file: %v\n"
  | .failedOpenFile => "Failed to open file: %v\n"
  | .failedCopy => "Failed to copy file data: %v\n"
  | .failedCloseWriter => "Failed to close multipart writer: %v\n"
  | .failedMarshal => "Failed to marshal JSON body: %v\n"
  | .failedCreateRequest => "Failed to create HTTP request: %v\n"
  | .failedSend => "Failed to send HTTP request: %v\n"
  | .failedRead => "Failed to read response body: %v\n"
  | .uploadFailed => "File upload failed.\n"
  | .fileUploaded fileID =>
    "[+] File uploaded successfully. File ID: " ++ fileID ++ " Elapsed Time: %.2f seconds\n"
  | .waitingFile => "\r[!] Waiting for file processing... Elapsed Time: %.2f seconds"
  | .newline => "\n"
  | .fileProcessingCompleted => "[+] File processing completed.\n"
  | .startingJob => "[!] Starting Fine-tuning Job... Elapsed Time: %.2f seconds\n"
  | .jobCreationFailed => "Fine-tuning job creation failed.\n"
  | .jobCreated jobID => "[+] Fine-tuning job created successfully. Job ID: " ++ jobID ++ "\n"
  | .waitingJob =>
    "\r[!] Waiting for fine-tuning job to complete... Elapsed Time: %.2f seconds"
  | .jobCompleted => "[+] Fine-tuning job completed.\n"
  | .elapsed => "[!] Elapsed Time: %.2f seconds\n"
  | .modelReady model => "\nFine-tuned model ready to use: " ++ model ++ "\n"
  | .noModel => "No fine-tuned model available.\n"

/-- One observable step of a run: a pass through the request sequence at a
site with its outcome, a console message, or a sleep of one second. -/
inductive Event where
  | http (site : Site) (req : Request) (out : Outcome)
  | print (m : Msg)
  | sleep
deriving DecidableEq, Repr

/-- The requests of a trace that left the process, oldest first. -/
def sent : List Event → List Request
  | [] => []
  | .http _ _ .createErr :: rest => sent rest
  | .http _ r _ :: rest => r :: sent rest
  | _ :: rest => sent rest

/-- The sites of the requests of a trace that left the process, oldest
first. -/
def sentSites : List Event → List Site
  | [] => []
  | .http _ _ .createErr :: rest => sentSites rest
  | .http s _ _ :: rest => s :: sentSites rest
  | _ :: rest => sentSites rest

/-! ## The world outside the program -/

/-- What happens to the local steps of the upload, in the order of the code:
`CreateFormFile`, `os.Open`, `io.Copy`, `writer.Close`. -/
inductive LocalFile where
  | createFormFileErr
  | openErr
  | copyErr
  | closeErr
  | ok (content : String)
deriving DecidableEq, Repr

/-- Everything the program depends on and does not own. -/
structure World where
  /-- Whether `http.NewRequest(method, url, _)` returns no error. -/
  newRequestOk : String → String → Bool
  /-- The answer to a request, given the requests sent before it. -/
  respond : List Request → Request → Reply
  /-- The fate of the local steps of the upload for a path. -/
  localFile : String → LocalFile
  /-- The boundary chosen by `multipart.NewWriter`. -/
  boundary : String

/-- The two package-level variables set from the flags. -/
structure Config where
  filePath : String
  token : String
deriving DecidableEq, Repr

/-- A reply of the remote side, as the outcome of a request that was built. -/
def Reply.toOutcome : Reply → Outcome
  | .sendErr => .sendErr
  | .readErr => .readErr
  | .body b => .body b

/-- The outcome of the sequence `http.NewRequest`, `client.Do`, `io.ReadAll`
for a request, after the requests `hist`. -/
def answer (w : World) (hist : List Request) (req : Request) : Outcome :=
  if w.newRequestOk req.method req.url then (w.respond hist req).toOutcome else .createErr

/-- One pass through the request sequence at a site, recorded in the trace. -/
def exchange (w : World) (site : Site) (req : Request) (st : List Event) :
    Outcome × List Event :=
  (answer w (sent st) req, st ++ [.http site req (answer w (sent st) req)])

/-! ## The program -/

/-! ### Start-up: the command line (library `flag`) and `init` -/

/-- The values of the two flags before the command line is read: both are
registered by `flag.StringVar` with the default "". -/
def noFlags : Config := { filePath := "", token := "" }

/-- What one argument of the command line is to the flag library, which knows
the two string flags `file` and `token`. -/
inductive FlagArg where
  | stop
  | bad
  | help
  | notDefined (name : String)
  | flag (name : String) (value : Option String)
deriving DecidableEq, Repr

/-- The name of a flag up to the first `=` that is not its first character,
and the value after that `=` when there is one.  The argument is the name
without its first character. -/
def splitAtEquals : List Char → List Char × Option (List Char)
  | [] => ([], none)
  | c :: cs =>
    if c = '=' then ([], some cs)
    else ((c :: (splitAtEquals cs).1), (splitAtEquals cs).2)

/-- The reading of one argument in `FlagSet.parseOne`: an argument shorter
than two characters or without a leading `-` ends the flags, and so does `--`;
one or two `-` are taken off; a name that is empty or starts with `-` or `=`
is bad syntax; the name ends at the first `=`; a name that is not a flag is a
request for help when it is `help` or `h`, an error otherwise. -/
def parseArg (s : String) : FlagArg :=
  match s.toList with
  | '-' :: c :: cs =>
    if c = '-' ∧ cs = [] then .stop
    else
      match (if c = '-' then cs else c :: cs) with
      | [] => .bad
      | n0 :: ns =>
        if n0 = '-' ∨ n0 = '=' then .bad
        else if String.mk (n0 :: (splitAtEquals ns).1) = "file" ∨
            String.mk (n0 :: (splitAtEquals ns).1) = "token" then
          .flag (String.mk (n0 :: (splitAtEquals ns).1)) ((splitAtEquals ns).2.map String.mk)
        else if String.mk (n0 :: (splitAtEquals ns).1) = "help" ∨
            String.mk (n0 :: (splitAtEquals ns).1) = "h" then .help
        else .notDefined (String.mk (n0 :: (splitAtEquals ns).1))
  | _ => .stop

/-- The call `Value.Set` of the string flag `name`: it stores the value in the
variable the flag was registered with. -/
def setFlag (cfg : Config) (name : String) (value : String) : Config :=
  if name = "file" then { cfg with filePath := value }
  else if name = "token" then { cfg with token := value }
  else cfg

/-- How `flag.Parse` ends. -/
inductive FlagEnd where
  | done
  | help
  | badSyntax (arg : String)
  | notDefined (name : String)
  | needsArgument (name : String)
deriving DecidableEq, Repr

/-- The call `flag.Parse()` on the arguments after the program name: flags are
read one by one, a flag without `=value` takes the next argument as its value,
and the reading stops at the first argument that is not a flag, at a request
for help or at an error.  The result is how the reading ended and the values
set up to there. -/
def flagParse : List String → Config → FlagEnd × Config
  | [], cfg => (.done, cfg)
  | s :: rest, cfg =>
    match parseArg s with
    | .stop => (.done, cfg)
    | .bad => (.badSyntax s, cfg)
    | .help => (.help, cfg)
    | .notDefined name => (.notDefined name, cfg)
    | .flag name (some v) => flagParse rest (setFlag cfg name v)
    | .flag name none =>
      match rest with
      | [] => (.needsArgument name, cfg)
      | v :: rest1 => flagParse rest1 (setFlag cfg name v)

/-- The function `init`: the exit code when the process ends there, what is
printed, and the values of the two flags.  The command line is that of the
library, which exits on an error: `flag.Parse` prints the usage and exits with
0 after a request for help, prints the error and the usage and exits with 2
after an error; then comes the check that both values are set. -/
def init (args : List String) : Option Nat × List Event × Config :=
  match flagParse args noFlags with
  | (.help, cfg) => (some 0, [.print .usage], cfg)
  | (.badSyntax arg, cfg) => (some 2, [.print (.badFlagSyntax arg), .print .usage], cfg)
  | (.notDefined name, cfg) => (some 2, [.print (.flagNotDefined name), .print .usage], cfg)
  | (.needsArgument name, cfg) =>
    (some 2, [.print (.flagNeedsArgument name), .print .usage], cfg)
  | (.done, cfg) =>
    if cfg.filePath = "" ∨ cfg.token = "" then
      (some 1, [.print .failedToStart, .print .usage], cfg)
    else (none, [], cfg)

/-- The request of `uploadFile`. -/
def uploadRequest (cfg : Config) (w : World) (content : String) : Request :=
  { method := "POST"
    url := "https://api.openai.com/v1/files"
    header := [("Authorization", ["Bearer " ++ cfg.token]),
      ("Content-Type", ["multipart/form-data; boundary=" ++ w.boundary])]
    body := .multipart "file" cfg.filePath content }

/-- Step 2 of the program: upload the training data file. -/
def uploadFile (cfg : Config) (w : World) (st : List Event) : String × List Event :=
  match w.localFile cfg.filePath with
  | .createFormFileErr => ("", st ++ [.print .failedCreateFormFile])
  | .openErr => ("", st ++ [.print .failedOpenFile])
  | .copyErr => ("", st ++ [.print .failedCopy])
  | .closeErr => ("", st ++ [.print .failedCloseWriter])
  | .ok content =>
    match exchange w .upload (uploadRequest cfg w content) st with
    | (.createErr, st1) => ("", st1 ++ [.print .failedCreateRequest])
    | (.sendErr, st1) => ("", st1 ++ [.print .failedSend])
    | (.readErr, st1) => ("", st1 ++ [.print .failedRead])
    | (.body b, st1) => (gjsonString (gjsonGet b "id"), st1)

/-- The request of `isFileProcessed`. -/
def fileStatusRequest (cfg : Config) (fileID : String) : Request :=
  { method := "GET"
    url := "https://api.openai.com/v1/files/" ++ fileID
    header := [("Authorization", ["Bearer " ++ cfg.token])]
    body := .none }

/-- Check if the uploaded file is processed. -/
def isFileProcessed (cfg : Config) (w : World) (fileID : String) (st : List Event) :
    Bool × List Event :=
  match exchange w .filePoll (fileStatusRequest cfg fileID) st with
  | (.createErr, st1) => (false, st1 ++ [.print .failedCreateRequest])
  | (.sendErr, st1) => (false, st1 ++ [.print .failedSend])
  | (.readErr, st1) => (false, st1 ++ [.print .failedRead])
  | (.body b, st1) => (decide (gjsonString (gjsonGet b "status") = "processed"), st1)

/-- The request of `createFineTuningJob`.  The body is the map handed to
`json.Marshal`, which cannot fail on a map of strings. -/
def jobCreationRequest (cfg : Config) (fileID : String) : Request :=
  { method := "POST"
    url := "https://api.openai.com/v1/fine_tuning/jobs"
    header := [("Authorization", ["Bearer " ++ cfg.token]),
      ("Content-Type", ["application/json"])]
    body := .json [("training_file", fileID), ("model", "gpt-3.5-turbo-0613")] }

/-- Step 3 of the program: create a fine-tuning job. -/
def createFineTuningJob (cfg : Config) (w : World) (fileID : String) (st : List Event) :
    String × List Event :=
  match exchange w .jobCreate (jobCreationRequest cfg fileID) st with
  | (.createErr, st1) => ("", st1 ++ [.print .failedCreateRequest])
  | (.sendErr, st1) => ("", st1 ++ [.print .failedSend])
  | (.readErr, st1) => ("", st1 ++ [.print .failedRead])
  | (.body b, st1) => (gjsonString (gjsonGet b "id"), st1)

/-- The request of `isJobReady`, built again for the result retrieval at the
end of `main`. -/
def jobStatusRequest (cfg : Config) (jobID : String) : Request :=
  { method := "GET"
    url := "https://api.openai.com/v1/fine_tuning/jobs/" ++ jobID
    header := [("Authorization", ["Bearer " ++ cfg.token])]
    body := .none }

/-- Check if the fine-tuning job is ready. -/
def isJobReady (cfg : Config) (w : World) (jobID : String) (st : List Event) :
    Bool × List Event :=
  match exchange w .jobPoll (jobStatusRequest cfg jobID) st with
  | (.createErr, st1) => (false, st1 ++ [.print .failedCreateRequest])
  | (.sendErr, st1) => (false, st1 ++ [.print .failedSend])
  | (.readErr, st1) => (false, st1 ++ [.print .failedRead])
  | (.body b, st1) => (decide (gjsonString (gjsonGet b "status") = "succeeded"), st1)

/-- The statement `for !check() { print wait; sleep 1s }`, with at most `fuel`
checks.  The flag says whether the loop was left. -/
def pollLoop (check : List Event → Bool × List Event) (wait : Msg) :
    Nat → List Event → Bool × List Event
  | 0, st => (false, st)
  | fuel + 1, st =>
    match check st with
    | (true, st1) => (true, st1)
    | (false, st1) => pollLoop check wait fuel (st1 ++ [.print wait, .sleep])

/-- Wait until the fine-tuning job is ready. -/
def waitForJob (cfg : Config) (w : World) (jobID : String) (fuel : Nat) (st : List Event) :
    Bool × List Event :=
  match pollLoop (isJobReady cfg w jobID) .waitingJob fuel st with
  | (true, st1) => (true, st1 ++ [.print .newline])
  | (false, st1) => (false, st1)

/-- The function `main`.  The flag says whether `main` returned, which it does
unless a polling loop used up `fuel` checks. -/
def main (cfg : Config) (w : World) (fuel : Nat) : Bool × List Event :=
  match uploadFile cfg w [.print .starting] with
  | (fileID, st1) =>
    if fileID = "" then (true, st1 ++ [.print .uploadFailed])
    else
      match pollLoop (isFileProcessed cfg w fileID) .waitingFile fuel
          (st1 ++ [.print (.fileUploaded fileID)]) with
      | (false, st2) => (false, st2)
      | (true, st2) =>
        match createFineTuningJob cfg w fileID
            (st2 ++ [.print .newline, .print .fileProcessingCompleted, .print .startingJob]) with
        | (jobID, st3) =>
          if jobID = "" then (true, st3 ++ [.print .jobCreationFailed])
          else
            match waitForJob cfg w jobID fuel (st3 ++ [.print (.jobCreated jobID)]) with
            | (false, st4) => (false, st4)
            | (true, st4) =>
              match exchange w .retrieve (jobStatusRequest cfg jobID)
                  (st4 ++ [.print .jobCompleted, .print .elapsed]) with
              | (.createErr, st5) => (true, st5 ++ [.print .failedCreateRequest])
              | (.sendErr, st5) => (true, st5 ++ [.print .failedSend])
              | (.readErr, st5) => (true, st5 ++ [.print .failedRead])
              | (.body b, st5) =>
                if gjsonString (gjsonGet b "fine_tuned_model") ≠ "" then
                  (true, st5 ++ [.print (.modelReady (gjsonString (gjsonGet b "fine_tuned_model")))])
                else (true, st5 ++ [.print .noModel])

/-- The process on a command line: `init` runs before `main` and may end the
process with an exit code; a `main` that returns ends it with code 0; nothing
ends it while a loop goes on. -/
def program (args : List String) (w : World) (fuel : Nat) : Option Nat × List Event :=
  match init args with
  | (some code, st, _) => (some code, st)
  | (none, _, cfg) =>
    match main cfg w fuel with
    | (true, st) => (some 0, st)
    | (false, st) => (none, st)

/-! ## Vocabulary for the statements -/

/-- The failure message that follows an outcome: none after a body. -/
def Outcome.report : Outcome → List Event
  | .createErr => [.print .failedCreateRequest]
  | .sendErr => [.print .failedSend]
  | .readErr => [.print .failedRead]
  | .body _ => []

/-- The string read from a key of the body of an outcome; an outcome without
a body gives the empty string, which is what every step returns then. -/
def Outcome.field (o : Outcome) (key : String) : String :=
  match o with
  | .body b => gjsonString (gjsonGet b key)
  | _ => ""

/-- An outcome without a body: the request failed. -/
def Outcome.failed : Outcome → Bool
  | .body _ => false
  | _ => true

/-- What `main` prints after the outcome of the result retrieval. -/
def retrieveTail (o : Outcome) : List Event :=
  match o with
  | .body b =>
    if gjsonString (gjsonGet b "fine_tuned_model") ≠ "" then
      [.print (.modelReady (gjsonString (gjsonGet b "fine_tuned_model")))]
    else [.print .noModel]
  | _ => o.report

/-- An event that is a pass through the request sequence. -/
def Event.isHttp : Event → Bool
  | .http _ _ _ => true
  | _ => false

/-- An event that is a pass through the request sequence at the site `s`. -/
def Event.atSite (s : Site) : Event → Bool
  | .http s1 _ _ => decide (s1 = s)
  | _ => false

/-- An event that prints the name of a fine-tuned model. -/
def Event.printsModel : Event → Bool
  | .print (.modelReady _) => true
  | _ => false

/-- An event of one of the three steps that run their request once (upload,
job creation, result retrieval) whose request failed. -/
def Event.failedOnce : Event → Bool
  | .http .upload _ o => o.failed
  | .http .jobCreate _ o => o.failed
  | .http .retrieve _ o => o.failed
  | _ => false

/-- The events a polling loop at site `s` with request `req` adds to a trace:
its checks, the failure message of a check, its waiting message, its sleeps
and the line break printed when the wait is over. -/
def Event.inPoll (s : Site) (req : Request) : Event → Bool
  | .http s1 r _ => decide (s1 = s ∧ r = req)
  | .print .failedCreateRequest => true
  | .print .failedSend => true
  | .print .failedRead => true
  | .print .waitingFile => true
  | .print .waitingJob => true
  | .print .newline => true
  | .print _ => false
  | .sleep => true

/-- The trace of a run up to the end of the file poll: the upload answered
with the body `bu`, then the events `ev1` of the file poll. -/
def headFile (cfg : Config) (w : World) (content : String) (bu : Body)
    (ev1 : List Event) : List Event :=
  [.print .starting, .http .upload (uploadRequest cfg w content) (.body bu),
    .print (.fileUploaded (gjsonString (gjsonGet bu "id")))] ++ ev1

/-- The trace of a run up to the end of the job poll: after `headFile`, the
job creation answered with the body `bc`, then the events `ev2` of the job
poll. -/
def headJob (cfg : Config) (w : World) (content : String) (bu : Body)
    (ev1 : List Event) (bc : Body) (ev2 : List Event) : List Event :=
  headFile cfg w content bu ev1 ++
    [.print .newline, .print .fileProcessingCompleted, .print .startingJob,
      .http .jobCreate (jobCreationRequest cfg (gjsonString (gjsonGet bu "id"))) (.body bc),
      .print (.jobCreated (gjsonString (gjsonGet bc "id")))] ++ ev2

/-- The six ways a run of `main` can end, as the flag and the trace. -/
inductive RunShape (cfg : Config) (w : World) : Bool × List Event → Prop where
  | localFailure (m : Msg)
    (hm : m = .failedCreateFormFile ∨ m = .failedOpenFile ∨ m = .failedCopy ∨
      m = .failedCloseWriter) :
    RunShape cfg w (true, [.print .starting, .print m, .print .uploadFailed])
  | uploadFailure (content : String) (o : Outcome) (hid : o.field "id" = "") :
    RunShape cfg w (true, [.print .starting,
      .http .upload (uploadRequest cfg w content) o] ++ o.report ++ [.print .uploadFailed])
  | filePollGoesOn (content : String) (bu : Body) (ev1 : List Event)
    (hfid : gjsonString (gjsonGet bu "id") ≠ "")
    (hev1 : ev1.all
      (Event.inPoll .filePoll (fileStatusRequest cfg (gjsonString (gjsonGet bu "id")))) = true) :
    RunShape cfg w (false, headFile cfg w content bu ev1)
  | jobCreationFailure (content : String) (bu : Body) (ev1 : List Event) (o : Outcome)
    (hfid : gjsonString (gjsonGet bu "id") ≠ "")
    (hev1 : ev1.all
      (Event.inPoll .filePoll (fileStatusRequest cfg (gjsonString (gjsonGet bu "id")))) = true)
    (hid : o.field "id" = "") :
    RunShape cfg w (true, headFile cfg w content bu ev1 ++
      [.print .newline, .print .fileProcessingCompleted, .print .startingJob,
        .http .jobCreate (jobCreationRequest cfg (gjsonString (gjsonGet bu "id"))) o] ++
      o.report ++ [.print .jobCreationFailed])
  | jobPollGoesOn (content : String) (bu : Body) (ev1 : List Event) (bc : Body)
    (ev2 : List Event)
    (hfid : gjsonString (gjsonGet bu "id") ≠ "")
    (hev1 : ev1.all
      (Event.inPoll .filePoll (fileStatusRequest cfg (gjsonString (gjsonGet bu "id")))) = true)
    (hjid : gjsonString (gjsonGet bc "id") ≠ "")
    (hev2 : ev2.all
      (Event.inPoll .jobPoll (jobStatusRequest cfg (gjsonString (gjsonGet bc "id")))) = true) :
    RunShape cfg w (false, headJob cfg w content bu ev1 bc ev2)
  | retrieval (content : String) (bu : Body) (ev1 : List Event) (bc : Body)
    (ev2 : List Event) (o : Outcome)
    (hfid : gjsonString (gjsonGet bu "id") ≠ "")
    (hev1 : ev1.all
      (Event.inPoll .filePoll (fileStatusRequest cfg (gjsonString (gjsonGet bu "id")))) = true)
    (hjid : gjsonString (gjsonGet bc "id") ≠ "")
    (hev2 : ev2.all
      (Event.inPoll .jobPoll (jobStatusRequest cfg (gjsonString (gjsonGet bc "id")))) = true) :
    RunShape cfg w (true, headJob cfg w content bu ev1 bc ev2 ++
      [.print .jobCompleted, .print .elapsed,
        .http .retrieve (jobStatusRequest cfg (gjsonString (gjsonGet bc "id"))) o] ++
      retrieveTail o)

/-! ## Concrete worlds -/

/-- The flags of the concrete runs. -/
def testConfig : Config := { filePath := "train.jsonl", token := "sk-test" }

/-- A command line that sets the flags of the concrete runs. -/
def testArgs : List String := ["-file", "train.jsonl", "-token", "sk-test"]

/-- A remote service for the identifiers "file-1" and "job-1": it answers by
the URL of the request and, for the two status URLs, by the number of earlier
requests to the same URL. -/
def mockRespond (upload : Reply) (fileStatus : Nat → Reply) (create : Reply)
    (jobStatus : Nat → Reply) (hist : List Request) (r : Request) : Reply :=
  if r.url = "https://api.openai.com/v1/files" then upload
  else if r.url = "https://api.openai.com/v1/files/file-1" then
    fileStatus (hist.filter (fun q => decide (q.url = r.url))).length
  else if r.url = "https://api.openai.com/v1/fine_tuning/jobs" then create
  else if r.url = "https://api.openai.com/v1/fine_tuning/jobs/job-1" then
    jobStatus (hist.filter (fun q => decide (q.url = r.url))).length
  else .sendErr

/-- A world around `mockRespond`: every request can be built, the local file
holds "data". -/
def mockWorld (upload : Reply) (fileStatus : Nat → Reply) (create : Reply)
    (jobStatus : Nat → Reply) : World :=
  { newRequestOk := fun _ _ => true
    respond := mockRespond upload fileStatus create jobStatus
    localFile := fun _ => .ok "data"
    boundary := "b" }

/-- The end-to-end scenario: the upload gives "file-1", the file is "uploaded"
for two checks and "processed" from the third on, the job creation gives
"job-1", the job is "running" for one check and "succeeded" with the model
"ft:model-x" from the second on. -/
def endToEndWorld : World :=
  mockWorld (.body [("id", .string "file-1")])
    (fun k => if k < 2 then .body [("id", .string "file-1"), ("status", .string "uploaded")]
      else .body [("id", .string "file-1"), ("status", .string "processed")])
    (.body [("id", .string "job-1"), ("status", .string "queued")])
    (fun k => if k < 1 then .body [("id", .string "job-1"), ("status", .string "running")]
      else .body [("id", .string "job-1"), ("status", .string "succeeded"),
        ("fine_tuned_model", .string "ft:model-x")])

/-- A service whose job object has the member `fine_tuned_model` with the
value `null`. -/
def nullModelWorld : World :=
  mockWorld (.body [("id", .string "file-1")])
    (fun _ => .body [("status", .string "processed")])
    (.body [("id", .string "job-1")])
    (fun _ => .body [("status", .string "succeeded"), ("fine_tuned_model", .null)])

/-- A service whose job object has no member `fine_tuned_model`. -/
def missingModelWorld : World :=
  mockWorld (.body [("id", .string "file-1")])
    (fun _ => .body [("status", .string "processed")])
    (.body [("id", .string "job-1")])
    (fun _ => .body [("status", .string "succeeded")])

/-- A service whose first file-status request fails at the transport; every
other request is answered, the file is "processed" from the second check
on. -/
def flakyWorld : World :=
  mockWorld (.body [("id", .string "file-1")])
    (fun k => if k = 0 then .sendErr else .body [("status", .string "processed")])
    (.body [("id", .string "job-1")])
    (fun _ => .body [("status", .string "succeeded"),
      ("fine_tuned_model", .string "ft:model-x")])

/-- A service that cannot be reached. -/
def downWorld : World :=
  mockWorld .sendErr (fun _ => .sendErr) .sendErr (fun _ => .sendErr)

/-- A service that answers the upload with an error object. -/
def rejectedUploadWorld : World :=
  mockWorld (.body [("error", .string "invalid api key")]) (fun _ => .sendErr) .sendErr
    (fun _ => .sendErr)

/-- A service that answers the job creation with an error object. -/
def rejectedJobWorld : World :=
  mockWorld (.body [("id", .string "file-1")])
    (fun _ => .body [("status", .string "processed")])
    (.body [("error", .string "invalid training file")])
    (fun _ => .sendErr)

/-! ## The trace functions -/

theorem sent_append (a b : List Event) : sent (a ++ b) = sent a ++ sent b := by
  induction a with
  | nil => rfl
  | cons e a ih =>
    cases e with
    | http s r o => cases o <;> simp [sent, ih]
    | print m => simp [sent, ih]
    | sleep => simp [sent, ih]

theorem sentSites_append (a b : List Event) :
    sentSites (a ++ b) = sentSites a ++ sentSites b := by
  induction a with
  | nil => rfl
  | cons e a ih =>
    cases e with
    | http s r o => cases o <;> simp [sentSites, ih]
    | print m => simp [sentSites, ih]
    | sleep => simp [sentSites, ih]

theorem sent_report (o : Outcome) : sent o.report = [] := by
  cases o <;> rfl

theorem sentSites_report (o : Outcome) : sentSites o.report = [] := by
  cases o <;> rfl

theorem report_not_http (o : Outcome) : ∀ e ∈ o.report, e.isHttp = false := by
  cases o <;> simp [Outcome.report, Event.isHttp]

theorem answer_body_sent (w : World) (hist : List Request) (req : Request) (b : Body)
    (s : Site) (h : answer w hist req = .body b) :
    sent [Event.http s req (answer w hist req)] = [req] ∧
      sentSites [Event.http s req (answer w hist req)] = [s] := by
  rw [h]; exact ⟨rfl, rfl⟩

/-! ## The field extractor -/

theorem gjsonGet_none_of_lacks (b : Body) (key : String)
    (h : ∀ v, (key, v) ∉ b) : gjsonGet b key = none := by
  induction b with
  | nil => rfl
  | cons p rest ih =>
    obtain ⟨k, v⟩ := p
    have hk : k ≠ key := by
      intro hk
      exact h v (by simp [hk])
    have hrest : ∀ v, (key, v) ∉ rest := fun v hv => h v (List.mem_cons_of_mem _ hv)
    simp [gjsonGet, hk, ih hrest]

theorem field_of_lacks (b : Body) (key : String) (h : ∀ v, (key, v) ∉ b) :
    gjsonString (gjsonGet b key) = "" := by
  rw [gjsonGet_none_of_lacks b key h]; rfl

/-! ## The steps, one request each -/

theorem isFileProcessed_eq (cfg : Config) (w : World) (fileID : String) (st : List Event) :
    isFileProcessed cfg w fileID st =
      (decide ((answer w (sent st) (fileStatusRequest cfg fileID)).field "status" = "processed"),
        st ++ .http .filePoll (fileStatusRequest cfg fileID)
          (answer w (sent st) (fileStatusRequest cfg fileID)) ::
          (answer w (sent st) (fileStatusRequest cfg fileID)).report) := by
  unfold isFileProcessed exchange
  cases answer w (sent st) (fileStatusRequest cfg fileID) <;>
    simp [Outcome.field, Outcome.report]

theorem isJobReady_eq (cfg : Config) (w : World) (jobID : String) (st : List Event) :
    isJobReady cfg w jobID st =
      (decide ((answer w (sent st) (jobStatusRequest cfg jobID)).field "status" = "succeeded"),
        st ++ .http .jobPoll (jobStatusRequest cfg jobID)
          (answer w (sent st) (jobStatusRequest cfg jobID)) ::
          (answer w (sent st) (jobStatusRequest cfg jobID)).report) := by
  unfold isJobReady exchange
  cases answer w (sent st) (jobStatusRequest cfg jobID) <;>
    simp [Outcome.field, Outcome.report]

theorem createFineTuningJob_eq (cfg : Config) (w : World) (fileID : String)
    (st : List Event) :
    createFineTuningJob cfg w fileID st =
      ((answer w (sent st) (jobCreationRequest cfg fileID)).field "id",
        st ++ .http .jobCreate (jobCreationRequest cfg fileID)
          (answer w (sent st) (jobCreationRequest cfg fileID)) ::
          (answer w (sent st) (jobCreationRequest cfg fileID)).report) := by
  unfold createFineTuningJob exchange
  cases answer w (sent st) (jobCreationRequest cfg fileID) <;>
    simp [Outcome.field, Outcome.report]

theorem uploadFile_ok (cfg : Config) (w : World) (st : List Event) (content : String)
    (h : w.localFile cfg.filePath = .ok content) :
    uploadFile cfg w st =
      ((answer w (sent st) (uploadRequest cfg w content)).field "id",
        st ++ .http .upload (uploadRequest cfg w content)
          (answer w (sent st) (uploadRequest cfg w content)) ::
          (answer w (sent st) (uploadRequest cfg w content)).report) := by
  unfold uploadFile exchange
  simp only [h]
  generalize answer w (sent st) (uploadRequest cfg w content) = o
  cases o <;> simp [Outcome.field, Outcome.report]

theorem uploadFile_local (cfg : Config) (w : World) (st : List Event)
    (h : ∀ content, w.localFile cfg.filePath ≠ .ok content) :
    ∃ m, uploadFile cfg w st = ("", st ++ [.print m]) ∧
      (m = .failedCreateFormFile ∨ m = .failedOpenFile ∨ m = .failedCopy ∨
        m = .failedCloseWriter) := by
  unfold uploadFile
  cases hl : w.localFile cfg.filePath with
  | ok content => exact absurd hl (h content)
  | createFormFileErr => exact ⟨_, rfl, by simp⟩
  | openErr => exact ⟨_, rfl, by simp⟩
  | copyErr => exact ⟨_, rfl, by simp⟩
  | closeErr => exact ⟨_, rfl, by simp⟩

/-! ## The polling loop -/

theorem pollLoop_succ (check : List Event → Bool × List Event) (wait : Msg) (fuel : Nat)
    (st : List Event) :
    pollLoop check wait (fuel + 1) st =
      if (check st).1 = true then (true, (check st).2)
      else pollLoop check wait fuel ((check st).2 ++ [.print wait, .sleep]) := by
  rw [pollLoop]
  rcases hc : check st with ⟨r, st1⟩
  cases r <;> simp

/-- The loop only adds events, each of them a waiting message, a sleep or an
event of a check. -/
theorem pollLoop_events (check : List Event → Bool × List Event) (wait : Msg)
    (P : Event → Prop) (hw : P (.print wait)) (hs : P .sleep)
    (hc : ∀ st, ∃ ev, (check st).2 = st ++ ev ∧ ∀ e ∈ ev, P e) :
    ∀ fuel st, ∃ ev, (pollLoop check wait fuel st).2 = st ++ ev ∧ ∀ e ∈ ev, P e := by
  intro fuel
  induction fuel with
  | zero => intro st; exact ⟨[], by simp [pollLoop], by simp⟩
  | succ n ih =>
    intro st
    obtain ⟨ev, hev, hP⟩ := hc st
    rw [pollLoop_succ]
    by_cases h : (check st).1 = true
    · rw [if_pos h]; exact ⟨ev, hev, hP⟩
    · rw [if_neg h]
      obtain ⟨ev2, hev2, hP2⟩ := ih ((check st).2 ++ [.print wait, .sleep])
      refine ⟨ev ++ [.print wait, .sleep] ++ ev2, ?_, ?_⟩
      · rw [hev2, hev]; simp
      · intro e he
        simp only [List.mem_append, List.mem_cons, List.mem_singleton, List.not_mem_nil,
          or_false] at he
        rcases he with (he | he | he) | he
        · exact hP e he
        · rw [he]; exact hw
        · rw [he]; exact hs
        · exact hP2 e he

/-! ## The ways a run of `main` can end -/

theorem main_cases (cfg : Config) (w : World) (fuel : Nat) (Φ : Bool × List Event → Prop)
    (h1 : ∀ st1, uploadFile cfg w [.print .starting] = ("", st1) →
      Φ (true, st1 ++ [.print .uploadFailed]))
    (h2 : ∀ fid st1 st2, fid ≠ "" → uploadFile cfg w [.print .starting] = (fid, st1) →
      pollLoop (isFileProcessed cfg w fid) .waitingFile fuel
        (st1 ++ [.print (.fileUploaded fid)]) = (false, st2) →
      Φ (false, st2))
    (h3 : ∀ fid st1 st2 st3, fid ≠ "" → uploadFile cfg w [.print .starting] = (fid, st1) →
      pollLoop (isFileProcessed cfg w fid) .waitingFile fuel
        (st1 ++ [.print (.fileUploaded fid)]) = (true, st2) →
      createFineTuningJob cfg w fid
        (st2 ++ [.print .newline, .print .fileProcessingCompleted, .print .startingJob]) =
        ("", st3) →
      Φ (true, st3 ++ [.print .jobCreationFailed]))
    (h4 : ∀ fid st1 st2 jid st3 st4, fid ≠ "" →
      uploadFile cfg w [.print .starting] = (fid, st1) →
      pollLoop (isFileProcessed cfg w fid) .waitingFile fuel
        (st1 ++ [.print (.fileUploaded fid)]) = (true, st2) →
      jid ≠ "" →
      createFineTuningJob cfg w fid
        (st2 ++ [.print .newline, .print .fileProcessingCompleted, .print .startingJob]) =
        (jid, st3) →
      waitForJob cfg w jid fuel (st3 ++ [.print (.jobCreated jid)]) = (false, st4) →
      Φ (false, st4))
    (h5 : ∀ fid st1 st2 jid st3 st4, fid ≠ "" →
      uploadFile cfg w [.print .starting] = (fid, st1) →
      pollLoop (isFileProcessed cfg w fid) .waitingFile fuel
        (st1 ++ [.print (.fileUploaded fid)]) = (true, st2) →
      jid ≠ "" →
      createFineTuningJob cfg w fid
        (st2 ++ [.print .newline, .print .fileProcessingCompleted, .print .startingJob]) =
        (jid, st3) →
      waitForJob cfg w jid fuel (st3 ++ [.print (.jobCreated jid)]) = (true, st4) →
      Φ (true, st4 ++ [.print .jobCompleted, .print .elapsed] ++
        .http .retrieve (jobStatusRequest cfg jid)
          (answer w (sent (st4 ++ [.print .jobCompleted, .print .elapsed]))
            (jobStatusRequest cfg jid)) ::
        retrieveTail (answer w (sent (st4 ++ [.print .jobCompleted, .print .elapsed]))
            (jobStatusRequest cfg jid)))) :
    Φ (main cfg w fuel) := by
  unfold main
  rcases hu : uploadFile cfg w [.print .starting] with ⟨fid, st1⟩
  by_cases hfid : fid = ""
  · subst hfid
    simpa using h1 st1 hu
  simp only [hfid, if_false]
  rcases hp : pollLoop (isFileProcessed cfg w fid) .waitingFile fuel
      (st1 ++ [.print (.fileUploaded fid)]) with ⟨r, st2⟩
  cases r with
  | false => simp only [hp]; exact h2 fid st1 st2 hfid hu hp
  | true =>
    simp only [hp]
    rcases hc : createFineTuningJob cfg w fid
        (st2 ++ [.print .newline, .print .fileProcessingCompleted, .print .startingJob])
      with ⟨jid, st3⟩
    simp only [hc]
    by_cases hjid : jid = ""
    · subst hjid
      simpa using h3 fid st1 st2 st3 hfid hu hp hc
    simp only [hjid, if_false]
    rcases hw : waitForJob cfg w jid fuel (st3 ++ [.print (.jobCreated jid)]) with ⟨r, st4⟩
    cases r with
    | false => simp only [hw]; exact h4 fid st1 st2 jid st3 st4 hfid hu hp hjid hc hw
    | true =>
      simp only [hw]
      have key := h5 fid st1 st2 jid st3 st4 hfid hu hp hjid hc hw
      simp only [exchange]
      generalize answer w (sent (st4 ++ [.print .jobCompleted, .print .elapsed]))
        (jobStatusRequest cfg jid) = o at key ⊢
      cases o with
      | createErr => simpa [retrieveTail, Outcome.report] using key
      | sendErr => simpa [retrieveTail, Outcome.report] using key
      | readErr => simpa [retrieveTail, Outcome.report] using key
      | body b =>
        by_cases hm : gjsonString (gjsonGet b "fine_tuned_model") = ""
        · simpa [retrieveTail, hm] using key
        · simpa [retrieveTail, hm] using key

/-! ## The shape of a run -/

theorem field_ne_empty (o : Outcome) (key : String) (h : o.field key ≠ "") :
    ∃ b, o = .body b := by
  cases o with
  | body b => exact ⟨b, rfl⟩
  | createErr => exact absurd rfl h
  | sendErr => exact absurd rfl h
  | readErr => exact absurd rfl h

theorem report_inPoll (s : Site) (req : Request) (o : Outcome) :
    o.report.all (Event.inPoll s req) = true := by
  cases o <;> simp [Outcome.report, Event.inPoll]

theorem pollLoop_inPoll (check : List Event → Bool × List Event) (wait : Msg) (s : Site)
    (req : Request) (hw : (Event.print wait).inPoll s req = true)
    (hc : ∀ st, ∃ ev, (check st).2 = st ++ ev ∧ ev.all (Event.inPoll s req) = true)
    (fuel : Nat) (st : List Event) :
    ∃ ev, (pollLoop check wait fuel st).2 = st ++ ev ∧
      ev.all (Event.inPoll s req) = true := by
  obtain ⟨ev, hev, hP⟩ := pollLoop_events check wait (fun e => e.inPoll s req = true) hw rfl
    (fun st => by
      obtain ⟨ev, hev, hall⟩ := hc st
      exact ⟨ev, hev, fun e he => List.all_eq_true.mp hall e he⟩) fuel st
  exact ⟨ev, hev, List.all_eq_true.mpr hP⟩

theorem filePoll_inPoll (cfg : Config) (w : World) (fid : String) (fuel : Nat)
    (st : List Event) :
    ∃ ev, (pollLoop (isFileProcessed cfg w fid) .waitingFile fuel st).2 = st ++ ev ∧
      ev.all (Event.inPoll .filePoll (fileStatusRequest cfg fid)) = true := by
  apply pollLoop_inPoll (isFileProcessed cfg w fid) .waitingFile .filePoll
    (fileStatusRequest cfg fid) rfl
  intro st
  rw [isFileProcessed_eq]
  refine ⟨_, rfl, ?_⟩
  simp [Event.inPoll, report_inPoll]

theorem waitForJob_inPoll (cfg : Config) (w : World) (jid : String) (fuel : Nat)
    (st : List Event) :
    ∃ ev, (waitForJob cfg w jid fuel st).2 = st ++ ev ∧
      ev.all (Event.inPoll .jobPoll (jobStatusRequest cfg jid)) = true := by
  obtain ⟨ev, hev, hall⟩ := pollLoop_inPoll (isJobReady cfg w jid) .waitingJob .jobPoll
    (jobStatusRequest cfg jid) rfl
    (fun st => by
      rw [isJobReady_eq]
      refine ⟨_, rfl, ?_⟩
      simp [Event.inPoll, report_inPoll]) fuel st
  unfold waitForJob
  rcases hp : pollLoop (isJobReady cfg w jid) .waitingJob fuel st with ⟨r, st1⟩
  rw [hp] at hev
  simp only at hev
  subst hev
  cases r with
  | false => exact ⟨ev, rfl, hall⟩
  | true =>
    refine ⟨ev ++ [.print .newline], by simp, ?_⟩
    simp [List.all_append, hall, Event.inPoll]

/-- Every run of `main` has one of the six shapes. -/
theorem main_shape (cfg : Config) (w : World) (fuel : Nat) :
    RunShape cfg w (main cfg w fuel) := by
  have upload : ∀ fid st1, uploadFile cfg w [.print .starting] = (fid, st1) → fid ≠ "" →
      ∃ content bu, fid = gjsonString (gjsonGet bu "id") ∧
        st1 = [.print .starting, .http .upload (uploadRequest cfg w content) (.body bu)] := by
    intro fid st1 hu hfid
    cases hl : w.localFile cfg.filePath with
    | ok content =>
      rw [uploadFile_ok cfg w _ content hl] at hu
      simp only [Prod.mk.injEq] at hu
      obtain ⟨h1, h2⟩ := hu
      obtain ⟨bu, hbu⟩ := field_ne_empty _ "id" (h1 ▸ hfid)
      rw [hbu] at h1 h2
      exact ⟨content, bu, h1.symm, by rw [← h2]; rfl⟩
    | createFormFileErr | openErr | copyErr | closeErr =>
      obtain ⟨m, hm, -⟩ := uploadFile_local cfg w [.print .starting] (by rw [hl]; simp)
      rw [hm] at hu
      simp only [Prod.mk.injEq] at hu
      exact absurd hu.1.symm hfid
  have create : ∀ fid st jid st3, createFineTuningJob cfg w fid st = (jid, st3) → jid ≠ "" →
      ∃ bc, jid = gjsonString (gjsonGet bc "id") ∧
        st3 = st ++ [.http .jobCreate (jobCreationRequest cfg fid) (.body bc)] := by
    intro fid st jid st3 hc hjid
    rw [createFineTuningJob_eq] at hc
    simp only [Prod.mk.injEq] at hc
    obtain ⟨h1, h2⟩ := hc
    obtain ⟨bc, hbc⟩ := field_ne_empty _ "id" (h1 ▸ hjid)
    rw [hbc] at h1 h2
    exact ⟨bc, h1.symm, by rw [← h2]; rfl⟩
  apply main_cases cfg w fuel (RunShape cfg w)
  · intro st1 hu
    cases hl : w.localFile cfg.filePath with
    | ok content =>
      rw [uploadFile_ok cfg w _ content hl] at hu
      simp only [Prod.mk.injEq] at hu
      obtain ⟨h1, h2⟩ := hu
      rw [← h2]
      have := @RunShape.uploadFailure cfg w content _ h1
      simpa [sent] using this
    | createFormFileErr | openErr | copyErr | closeErr =>
      obtain ⟨m, hm, hcase⟩ := uploadFile_local cfg w [.print .starting] (by rw [hl]; simp)
      rw [hm] at hu
      simp only [Prod.mk.injEq, true_and] at hu
      rw [← hu]
      exact RunShape.localFailure m hcase
  · intro fid st1 st2 hfid hu hp
    obtain ⟨content, bu, rfl, rfl⟩ := upload fid st1 hu hfid
    obtain ⟨ev1, hev1, hall1⟩ := filePoll_inPoll cfg w (gjsonString (gjsonGet bu "id")) fuel
      ([.print .starting, .http .upload (uploadRequest cfg w content) (.body bu)] ++
        [.print (.fileUploaded (gjsonString (gjsonGet bu "id")))])
    rw [hp] at hev1
    simp only at hev1
    rw [hev1]
    exact RunShape.filePollGoesOn content bu ev1 hfid hall1
  · intro fid st1 st2 st3 hfid hu hp hc
    obtain ⟨content, bu, rfl, rfl⟩ := upload fid st1 hu hfid
    obtain ⟨ev1, hev1, hall1⟩ := filePoll_inPoll cfg w (gjsonString (gjsonGet bu "id")) fuel
      ([.print .starting, .http .upload (uploadRequest cfg w content) (.body bu)] ++
        [.print (.fileUploaded (gjsonString (gjsonGet bu "id")))])
    rw [hp] at hev1
    simp only at hev1
    rw [createFineTuningJob_eq] at hc
    generalize answer w _ _ = o at hc
    simp only [Prod.mk.injEq] at hc
    obtain ⟨h1, h2⟩ := hc
    rw [← h2, hev1]
    have := @RunShape.jobCreationFailure cfg w content bu ev1 o hfid hall1 h1
    simpa [headFile] using this
  · intro fid st1 st2 jid st3 st4 hfid hu hp hjid hc hw
    obtain ⟨content, bu, rfl, rfl⟩ := upload fid st1 hu hfid
    obtain ⟨ev1, hev1, hall1⟩ := filePoll_inPoll cfg w (gjsonString (gjsonGet bu "id")) fuel
      ([.print .starting, .http .upload (uploadRequest cfg w content) (.body bu)] ++
        [.print (.fileUploaded (gjsonString (gjsonGet bu "id")))])
    rw [hp] at hev1
    simp only at hev1
    obtain ⟨bc, rfl, rfl⟩ := create _ _ jid st3 hc hjid
    obtain ⟨ev2, hev2, hall2⟩ := waitForJob_inPoll cfg w (gjsonString (gjsonGet bc "id")) fuel
      (st2 ++ [.print .newline, .print .fileProcessingCompleted, .print .startingJob] ++
        [.http .jobCreate (jobCreationRequest cfg (gjsonString (gjsonGet bu "id")))
          (.body bc)] ++ [.print (.jobCreated (gjsonString (gjsonGet bc "id")))])
    rw [hw] at hev2
    simp only at hev2
    rw [hev2, hev1]
    have := @RunShape.jobPollGoesOn cfg w content bu ev1 bc ev2 hfid hall1
      hjid hall2
    simpa [headJob, headFile] using this
  · intro fid st1 st2 jid st3 st4 hfid hu hp hjid hc hw
    obtain ⟨content, bu, rfl, rfl⟩ := upload fid st1 hu hfid
    obtain ⟨ev1, hev1, hall1⟩ := filePoll_inPoll cfg w (gjsonString (gjsonGet bu "id")) fuel
      ([.print .starting, .http .upload (uploadRequest cfg w content) (.body bu)] ++
        [.print (.fileUploaded (gjsonString (gjsonGet bu "id")))])
    rw [hp] at hev1
    simp only at hev1
    obtain ⟨bc, rfl, rfl⟩ := create _ _ jid st3 hc hjid
    obtain ⟨ev2, hev2, hall2⟩ := waitForJob_inPoll cfg w (gjsonString (gjsonGet bc "id")) fuel
      (st2 ++ [.print .newline, .print .fileProcessingCompleted, .print .startingJob] ++
        [.http .jobCreate (jobCreationRequest cfg (gjsonString (gjsonGet bu "id")))
          (.body bc)] ++ [.print (.jobCreated (gjsonString (gjsonGet bc "id")))])
    rw [hw] at hev2
    simp only at hev2
    generalize answer w _ _ = o
    rw [hev2, hev1]
    have := @RunShape.retrieval cfg w content bu ev1 bc ev2 o hfid hall1
      hjid hall2
    simpa [headJob, headFile] using this

/-! ## Cutting a trace at an event -/

/-- A trace whose events all fail a test cannot be cut at an event that
passes it. -/
theorem no_cut (q : Event → Bool) (A pre post : List Event) (e : Event)
    (hA : A.all (fun y => !q y) = true) (he : q e = true) (h : pre ++ e :: post = A) :
    False := by
  have hmem : e ∈ A := by rw [← h]; simp
  have := List.all_eq_true.mp hA e hmem
  simp [he] at this

/-- A trace with one event that passes a test is cut at that event only. -/
theorem cut_unique (q : Event → Bool) :
    ∀ (A B pre post : List Event) (x e : Event),
      A.all (fun y => !q y) = true → B.all (fun y => !q y) = true → q e = true →
      pre ++ e :: post = A ++ x :: B → pre = A ∧ e = x ∧ post = B := by
  intro A
  induction A with
  | nil =>
    intro B pre post x e _ hB he h
    cases pre with
    | nil =>
      simp only [List.nil_append, List.cons.injEq] at h
      exact ⟨rfl, h.1, h.2⟩
    | cons p pre =>
      simp only [List.cons_append, List.nil_append, List.cons.injEq] at h
      exact (no_cut q B pre post e hB he h.2).elim
  | cons a A ih =>
    intro B pre post x e hA hB he h
    simp only [List.all_cons, Bool.and_eq_true] at hA
    cases pre with
    | nil =>
      simp only [List.nil_append, List.cons_append, List.cons.injEq] at h
      rw [← h.1, he] at hA
      simp at hA
    | cons p pre =>
      simp only [List.cons_append, List.cons.injEq] at h
      obtain ⟨h1, h2, h3⟩ := ih B pre post x e hA.2 hB he h.2
      exact ⟨by rw [h.1, h1], h2, h3⟩

theorem all_of_inPoll (q : Event → Bool) (s : Site) (req : Request) (ev : List Event)
    (hq : ∀ e, e.inPoll s req = true → q e = true)
    (h : ev.all (Event.inPoll s req) = true) : ev.all q = true :=
  List.all_eq_true.mpr (fun e he => hq e (List.all_eq_true.mp h e he))

theorem inPoll_not_failedOnce_file (req : Request) (e : Event)
    (h : e.inPoll .filePoll req = true) : (!e.failedOnce) = true := by
  cases e with
  | http s r o => cases s <;> simp_all [Event.inPoll, Event.failedOnce]
  | print m => simp [Event.failedOnce]
  | sleep => simp [Event.failedOnce]

theorem inPoll_not_failedOnce_job (req : Request) (e : Event)
    (h : e.inPoll .jobPoll req = true) : (!e.failedOnce) = true := by
  cases e with
  | http s r o => cases s <;> simp_all [Event.inPoll, Event.failedOnce]
  | print m => simp [Event.failedOnce]
  | sleep => simp [Event.failedOnce]

theorem report_all (q : Event → Bool) (o : Outcome)
    (h1 : q (.print .failedCreateRequest) = true) (h2 : q (.print .failedSend) = true)
    (h3 : q (.print .failedRead) = true) : o.report.all q = true := by
  cases o <;> simp [Outcome.report, h1, h2, h3]

theorem retrieveTail_body (b : Body) :
    retrieveTail (.body b) =
      if gjsonString (gjsonGet b "fine_tuned_model") = "" then [.print .noModel]
      else [.print (.modelReady (gjsonString (gjsonGet b "fine_tuned_model")))] := by
  unfold retrieveTail
  by_cases h : gjsonString (gjsonGet b "fine_tuned_model") = "" <;> simp [h]

theorem retrieveTail_failed (o : Outcome) (h : o.failed = true) :
    retrieveTail o = o.report := by
  cases o with
  | body b => simp [Outcome.failed] at h
  | createErr => rfl
  | sendErr => rfl
  | readErr => rfl

theorem retrieveTail_all (q : Event → Bool) (o : Outcome)
    (h1 : q (.print .failedCreateRequest) = true) (h2 : q (.print .failedSend) = true)
    (h3 : q (.print .failedRead) = true) (h4 : q (.print .noModel) = true)
    (h5 : ∀ m, q (.print (.modelReady m)) = true) : (retrieveTail o).all q = true := by
  cases o with
  | body b =>
    rw [retrieveTail_body]
    split <;> simp [h4, h5]
  | createErr => simpa [retrieveTail, Outcome.report] using h1
  | sendErr => simpa [retrieveTail, Outcome.report] using h2
  | readErr => simpa [retrieveTail, Outcome.report] using h3

/-! ## Cutting a run at a request -/

theorem inPoll_not_atSite (s s1 : Site) (req : Request) (hne : s ≠ s1) (e : Event)
    (h : e.inPoll s req = true) : (!e.atSite s1) = true := by
  cases e with
  | http s2 r o =>
    simp only [Event.inPoll, decide_eq_true_eq] at h
    simp only [Event.atSite, Bool.not_eq_true', decide_eq_false_iff_not]
    rw [h.1]; exact hne
  | print m => rfl
  | sleep => rfl

theorem inPoll_not_printsModel (s : Site) (req : Request) (e : Event)
    (h : e.inPoll s req = true) : (!e.printsModel) = true := by
  cases e with
  | http s2 r o => rfl
  | print m => cases m <;> simp_all [Event.inPoll, Event.printsModel]
  | sleep => rfl

theorem headFile_all (q : Event → Bool) (cfg : Config) (w : World) (content : String)
    (bu : Body) (ev1 : List Event)
    (hev1 : ev1.all
      (Event.inPoll .filePoll (fileStatusRequest cfg (gjsonString (gjsonGet bu "id")))) = true)
    (hpoll : ∀ e, e.inPoll .filePoll
      (fileStatusRequest cfg (gjsonString (gjsonGet bu "id"))) = true → q e = true)
    (h1 : q (.print .starting) = true)
    (h2 : q (.http .upload (uploadRequest cfg w content) (.body bu)) = true)
    (h3 : q (.print (.fileUploaded (gjsonString (gjsonGet bu "id")))) = true) :
    (headFile cfg w content bu ev1).all q = true := by
  have := all_of_inPoll q _ _ ev1 hpoll hev1
  simp only [headFile, List.all_append, List.all_cons, List.all_nil, h1, h2, h3, this,
    Bool.and_self]

theorem headJob_all (q : Event → Bool) (cfg : Config) (w : World) (content : String)
    (bu : Body) (ev1 : List Event) (bc : Body) (ev2 : List Event)
    (hev1 : ev1.all
      (Event.inPoll .filePoll (fileStatusRequest cfg (gjsonString (gjsonGet bu "id")))) = true)
    (hev2 : ev2.all
      (Event.inPoll .jobPoll (jobStatusRequest cfg (gjsonString (gjsonGet bc "id")))) = true)
    (hpoll1 : ∀ e, e.inPoll .filePoll
      (fileStatusRequest cfg (gjsonString (gjsonGet bu "id"))) = true → q e = true)
    (hpoll2 : ∀ e, e.inPoll .jobPoll
      (jobStatusRequest cfg (gjsonString (gjsonGet bc "id"))) = true → q e = true)
    (h1 : q (.print .starting) = true)
    (h2 : q (.http .upload (uploadRequest cfg w content) (.body bu)) = true)
    (h3 : q (.print (.fileUploaded (gjsonString (gjsonGet bu "id")))) = true)
    (h4 : q (.print .newline) = true) (h5 : q (.print .fileProcessingCompleted) = true)
    (h6 : q (.print .startingJob) = true)
    (h7 : q (.http .jobCreate (jobCreationRequest cfg (gjsonString (gjsonGet bu "id")))
      (.body bc)) = true)
    (h8 : q (.print (.jobCreated (gjsonString (gjsonGet bc "id")))) = true) :
    (headJob cfg w content bu ev1 bc ev2).all q = true := by
  have a := headFile_all q cfg w content bu ev1 hev1 hpoll1 h1 h2 h3
  have b := all_of_inPoll q _ _ ev2 hpoll2 hev2
  simp only [headJob, List.all_append, List.all_cons, List.all_nil, a, b, h4, h5, h6, h7, h8,
    Bool.and_self]

/-! ## The identifiers -/

theorem http_mem_inPoll (s s1 : Site) (req r : Request) (o : Outcome) (ev : List Event)
    (hall : ev.all (Event.inPoll s req) = true) (h : Event.http s1 r o ∈ ev) :
    s1 = s ∧ r = req := by
  have := List.all_eq_true.mp hall _ h
  simpa [Event.inPoll] using this

theorem http_not_mem_report (s : Site) (r : Request) (o o1 : Outcome) :
    Event.http s r o ∉ o1.report := by
  cases o1 <;> simp [Outcome.report]

theorem http_not_mem_retrieveTail (s : Site) (r : Request) (o o1 : Outcome) :
    Event.http s r o ∉ retrieveTail o1 := by
  intro h
  have := List.all_eq_true.mp
    (retrieveTail_all (fun e => !e.isHttp) o1 rfl rfl rfl rfl (fun _ => rfl)) _ h
  simp [Event.isHttp] at this

theorem print_mem_inPoll (s : Site) (req : Request) (m : Msg) (ev : List Event)
    (hall : ev.all (Event.inPoll s req) = true) (h : Event.print m ∈ ev) :
    m = .failedCreateRequest ∨ m = .failedSend ∨ m = .failedRead ∨ m = .waitingFile ∨
      m = .waitingJob ∨ m = .newline := by
  have := List.all_eq_true.mp hall _ h
  cases m <;> simp_all [Event.inPoll]

theorem print_mem_report (m : Msg) (o : Outcome) (h : Event.print m ∈ o.report) :
    m = .failedCreateRequest ∨ m = .failedSend ∨ m = .failedRead := by
  cases o <;> simp_all [Outcome.report]

theorem http_of_headFile (cfg : Config) (w : World) (content : String) (bu : Body)
    (ev1 : List Event) (s : Site) (r : Request) (o : Outcome)
    (hev1 : ev1.all
      (Event.inPoll .filePoll (fileStatusRequest cfg (gjsonString (gjsonGet bu "id")))) = true)
    (h : Event.http s r o ∈ headFile cfg w content bu ev1) :
    (s = .upload ∧ r = uploadRequest cfg w content ∧ o = .body bu) ∨
      (s = .filePoll ∧ r = fileStatusRequest cfg (gjsonString (gjsonGet bu "id"))) := by
  simp only [headFile, List.mem_append, List.mem_cons, List.mem_singleton, Event.http.injEq,
    List.not_mem_nil, or_false, reduceCtorEq, false_or] at h
  rcases h with h | h
  · exact Or.inl h
  · exact Or.inr (http_mem_inPoll _ _ _ _ _ _ hev1 h)

theorem http_of_headJob (cfg : Config) (w : World) (content : String) (bu : Body)
    (ev1 : List Event) (bc : Body) (ev2 : List Event) (s : Site) (r : Request) (o : Outcome)
    (hev1 : ev1.all
      (Event.inPoll .filePoll (fileStatusRequest cfg (gjsonString (gjsonGet bu "id")))) = true)
    (hev2 : ev2.all
      (Event.inPoll .jobPoll (jobStatusRequest cfg (gjsonString (gjsonGet bc "id")))) = true)
    (h : Event.http s r o ∈ headJob cfg w content bu ev1 bc ev2) :
    (s = .upload ∧ r = uploadRequest cfg w content ∧ o = .body bu) ∨
      (s = .filePoll ∧ r = fileStatusRequest cfg (gjsonString (gjsonGet bu "id"))) ∨
      (s = .jobCreate ∧ r = jobCreationRequest cfg (gjsonString (gjsonGet bu "id")) ∧
        o = .body bc) ∨
      (s = .jobPoll ∧ r = jobStatusRequest cfg (gjsonString (gjsonGet bc "id"))) := by
  simp only [headJob, List.mem_append, List.mem_cons, List.mem_singleton, Event.http.injEq,
    List.not_mem_nil, or_false, reduceCtorEq, false_or] at h
  rcases h with (h | h) | h
  · rcases http_of_headFile cfg w content bu ev1 s r o hev1 h with h | h
    · exact Or.inl h
    · exact Or.inr (Or.inl h)
  · exact Or.inr (Or.inr (Or.inl h))
  · exact Or.inr (Or.inr (Or.inr (http_mem_inPoll _ _ _ _ _ _ hev2 h)))

/-- The requests of a run: one upload; file-status checks for the identifier
of the upload outcome; one job creation for that identifier; job-status checks
and the retrieval for the identifier of the job-creation outcome. -/
theorem main_http (cfg : Config) (w : World) (fuel : Nat) :
    ∃ (content : String) (ou oc : Outcome), ∀ s r o,
      Event.http s r o ∈ (main cfg w fuel).2 →
      (s = .upload ∧ r = uploadRequest cfg w content ∧ o = ou) ∨
      (s = .filePoll ∧ r = fileStatusRequest cfg (ou.field "id")) ∨
      (s = .jobCreate ∧ r = jobCreationRequest cfg (ou.field "id") ∧ o = oc) ∨
      (s = .jobPoll ∧ r = jobStatusRequest cfg (oc.field "id")) ∨
      (s = .retrieve ∧ r = jobStatusRequest cfg (oc.field "id")) := by
  have hshape := main_shape cfg w fuel
  generalize main cfg w fuel = res at hshape ⊢
  cases hshape with
  | localFailure m hm =>
    exact ⟨"", .createErr, .createErr, fun s r o h => by simp at h⟩
  | uploadFailure content o1 hid =>
    refine ⟨content, o1, .createErr, fun s r o h => ?_⟩
    simp only [List.mem_append, List.mem_cons, List.mem_singleton, Event.http.injEq,
      List.not_mem_nil, or_false, reduceCtorEq, false_or, http_not_mem_report] at h
    exact Or.inl h
  | filePollGoesOn content bu ev1 hfid hev1 =>
    refine ⟨content, .body bu, .createErr, fun s r o h => ?_⟩
    rcases http_of_headFile cfg w content bu ev1 s r o hev1 h with h | h
    · exact Or.inl h
    · exact Or.inr (Or.inl h)
  | jobCreationFailure content bu ev1 o1 hfid hev1 hid =>
    refine ⟨content, .body bu, o1, fun s r o h => ?_⟩
    simp only [List.mem_append, List.mem_cons, List.mem_singleton, Event.http.injEq,
      List.not_mem_nil, or_false, reduceCtorEq, false_or, http_not_mem_report] at h
    rcases h with h | h
    · rcases http_of_headFile cfg w content bu ev1 s r o hev1 h with h | h
      · exact Or.inl h
      · exact Or.inr (Or.inl h)
    · exact Or.inr (Or.inr (Or.inl h))
  | jobPollGoesOn content bu ev1 bc ev2 hfid hev1 hjid hev2 =>
    refine ⟨content, .body bu, .body bc, fun s r o h => ?_⟩
    rcases http_of_headJob cfg w content bu ev1 bc ev2 s r o hev1 hev2 h with h | h | h | h
    · exact Or.inl h
    · exact Or.inr (Or.inl h)
    · exact Or.inr (Or.inr (Or.inl h))
    · exact Or.inr (Or.inr (Or.inr (Or.inl h)))
  | retrieval content bu ev1 bc ev2 o1 hfid hev1 hjid hev2 =>
    refine ⟨content, .body bu, .body bc, fun s r o h => ?_⟩
    simp only [List.mem_append, List.mem_cons, List.mem_singleton, Event.http.injEq,
      List.not_mem_nil, or_false, reduceCtorEq, false_or, http_not_mem_retrieveTail] at h
    rcases h with h | h
    · rcases http_of_headJob cfg w content bu ev1 bc ev2 s r o hev1 hev2 h with h | h | h | h
      · exact Or.inl h
      · exact Or.inr (Or.inl h)
      · exact Or.inr (Or.inr (Or.inl h))
      · exact Or.inr (Or.inr (Or.inr (Or.inl h)))
    · exact Or.inr (Or.inr (Or.inr (Or.inr ⟨h.1, h.2.1⟩)))

theorem inPoll_ne_jobCompleted (s : Site) (req : Request) (e : Event)
    (h : e.inPoll s req = true) : decide (e ≠ .print .jobCompleted) = true := by
  cases e with
  | http s1 r o => simp
  | print m => cases m <;> simp_all [Event.inPoll]
  | sleep => simp

/-- A run that prints that the job is completed went through every step up to
the result retrieval. -/
theorem main_reaches_retrieval (cfg : Config) (w : World) (fuel : Nat)
    (h : Event.print .jobCompleted ∈ (main cfg w fuel).2) :
    ∃ content bu ev1 bc ev2 o,
      gjsonString (gjsonGet bu "id") ≠ "" ∧ gjsonString (gjsonGet bc "id") ≠ "" ∧
      ev1.all (Event.inPoll .filePoll
        (fileStatusRequest cfg (gjsonString (gjsonGet bu "id")))) = true ∧
      ev2.all (Event.inPoll .jobPoll
        (jobStatusRequest cfg (gjsonString (gjsonGet bc "id")))) = true ∧
      main cfg w fuel = (true, headJob cfg w content bu ev1 bc ev2 ++
        [.print .jobCompleted, .print .elapsed,
          .http .retrieve (jobStatusRequest cfg (gjsonString (gjsonGet bc "id"))) o] ++
        retrieveTail o) := by
  have hshape := main_shape cfg w fuel
  generalize main cfg w fuel = res at hshape h ⊢
  have hrep : ∀ o : Outcome,
      o.report.all (fun e => decide (e ≠ .print .jobCompleted)) = true :=
    fun o => report_all _ o rfl rfl rfl
  have key : ∀ t : List Event, t.all (fun e => decide (e ≠ .print .jobCompleted)) = true →
      Event.print .jobCompleted ∈ t → False := by
    intro t ht hmem
    have := List.all_eq_true.mp ht _ hmem
    simp at this
  cases hshape with
  | localFailure m hm =>
    exfalso
    rcases hm with rfl | rfl | rfl | rfl <;> simp at h
  | uploadFailure content o1 hid =>
    exact (key _ (by simp only [List.all_append, hrep]; simp) h).elim
  | filePollGoesOn content bu ev1 hfid hev1 =>
    refine (key _ ?_ h).elim
    have h1 := all_of_inPoll _ _ _ ev1 (inPoll_ne_jobCompleted _ _) hev1
    simp only [headFile, List.all_append, h1]
    simp
  | jobCreationFailure content bu ev1 o1 hfid hev1 hid =>
    refine (key _ ?_ h).elim
    have h1 := all_of_inPoll _ _ _ ev1 (inPoll_ne_jobCompleted _ _) hev1
    simp only [headFile, List.all_append, h1, hrep]
    simp
  | jobPollGoesOn content bu ev1 bc ev2 hfid hev1 hjid hev2 =>
    refine (key _ ?_ h).elim
    have h1 := all_of_inPoll _ _ _ ev1 (inPoll_ne_jobCompleted _ _) hev1
    have h2 := all_of_inPoll _ _ _ ev2 (inPoll_ne_jobCompleted _ _) hev2
    simp only [headJob, headFile, List.all_append, h1, h2]
    simp
  | retrieval content bu ev1 bc ev2 o1 hfid hev1 hjid hev2 =>
    exact ⟨content, bu, ev1, bc, ev2, o1, hfid, hjid, hev1, hev2, rfl⟩

/-- C6: in every run, the identifier read from the `id` member of the upload
response is, as it is, the last segment of the URL of every file-status
request and the `training_file` member of the job-creation request; the
identifier read from the `id` member of the job-creation response is, as it
is, the last segment of the URL of every job-status request and of the result
retrieval.  A run that completes the job poll has both responses, with
non-empty identifiers, and a retrieval. -/
theorem identifiers_flow_unmodified (cfg : Config) (w : World) (fuel : Nat) :
    (∀ ru bu, Event.http .upload ru (.body bu) ∈ (main cfg w fuel).2 →
      (∀ r o, Event.http .filePoll r o ∈ (main cfg w fuel).2 →
        r.url = "https://api.openai.com/v1/files/" ++ gjsonString (gjsonGet bu "id")) ∧
      (∀ r o, Event.http .jobCreate r o ∈ (main cfg w fuel).2 →
        r.body = .json [("training_file", gjsonString (gjsonGet bu "id")),
          ("model", "gpt-3.5-turbo-0613")])) ∧
    (∀ rc bc, Event.http .jobCreate rc (.body bc) ∈ (main cfg w fuel).2 →
      (∀ r o, Event.http .jobPoll r o ∈ (main cfg w fuel).2 →
        r.url = "https://api.openai.com/v1/fine_tuning/jobs/" ++
          gjsonString (gjsonGet bc "id")) ∧
      (∀ r o, Event.http .retrieve r o ∈ (main cfg w fuel).2 →
        r.url = "https://api.openai.com/v1/fine_tuning/jobs/" ++
          gjsonString (gjsonGet bc "id"))) ∧
    (Event.print .jobCompleted ∈ (main cfg w fuel).2 →
      ∃ ru bu rc bc, Event.http .upload ru (.body bu) ∈ (main cfg w fuel).2 ∧
        Event.http .jobCreate rc (.body bc) ∈ (main cfg w fuel).2 ∧
        gjsonString (gjsonGet bu "id") ≠ "" ∧ gjsonString (gjsonGet bc "id") ≠ "" ∧
        ∃ r o, Event.http .retrieve r o ∈ (main cfg w fuel).2) := by
  obtain ⟨content, ou, oc, hall⟩ := main_http cfg w fuel
  refine ⟨fun ru bu hu => ?_, fun rc bc hc => ?_, fun hdone => ?_⟩
  · have hou : ou = .body bu := by
      rcases hall _ _ _ hu with h | h | h | h | h
      · exact h.2.2.symm
      all_goals exact absurd h.1 (by decide)
    subst hou
    constructor
    · intro r o hr
      rcases hall _ _ _ hr with h | h | h | h | h
      · exact absurd h.1 (by decide)
      · rw [h.2]; rfl
      all_goals exact absurd h.1 (by decide)
    · intro r o hr
      rcases hall _ _ _ hr with h | h | h | h | h
      · exact absurd h.1 (by decide)
      · exact absurd h.1 (by decide)
      · rw [h.2.1]; rfl
      all_goals exact absurd h.1 (by decide)
  · have hoc : oc = .body bc := by
      rcases hall _ _ _ hc with h | h | h | h | h
      · exact absurd h.1 (by decide)
      · exact absurd h.1 (by decide)
      · exact h.2.2.symm
      all_goals exact absurd h.1 (by decide)
    subst hoc
    constructor
    · intro r o hr
      rcases hall _ _ _ hr with h | h | h | h | h
      · exact absurd h.1 (by decide)
      · exact absurd h.1 (by decide)
      · exact absurd h.1 (by decide)
      · rw [h.2]; rfl
      · exact absurd h.1 (by decide)
    · intro r o hr
      rcases hall _ _ _ hr with h | h | h | h | h
      · exact absurd h.1 (by decide)
      · exact absurd h.1 (by decide)
      · exact absurd h.1 (by decide)
      · exact absurd h.1 (by decide)
      · rw [h.2]; rfl
  · obtain ⟨c, bu, ev1, bc, ev2, o, hfid, hjid, -, -, hm⟩ :=
      main_reaches_retrieval cfg w fuel hdone
    rw [hm]
    refine ⟨uploadRequest cfg w c, bu,
      jobCreationRequest cfg (gjsonString (gjsonGet bu "id")), bc, ?_, ?_, hfid, hjid,
      jobStatusRequest cfg (gjsonString (gjsonGet bc "id")), o, ?_⟩ <;>
      simp [headJob, headFile]

/-! ## Polling -/

theorem isFileProcessed_extends (cfg : Config) (w : World) (fileID : String)
    (st : List Event) :
    ∃ ev, (isFileProcessed cfg w fileID st).2 = st ++ ev ∧ ∀ e ∈ ev, True := by
  rw [isFileProcessed_eq]; exact ⟨_, rfl, fun _ _ => trivial⟩

theorem isJobReady_extends (cfg : Config) (w : World) (jobID : String) (st : List Event) :
    ∃ ev, (isJobReady cfg w jobID st).2 = st ++ ev ∧ ∀ e ∈ ev, True := by
  rw [isJobReady_eq]; exact ⟨_, rfl, fun _ _ => trivial⟩

theorem pollLoop_ne_shorter (check : List Event → Bool × List Event) (wait : Msg)
    (hc : ∀ st, ∃ ev, (check st).2 = st ++ ev ∧ ∀ e ∈ ev, True)
    (fuel : Nat) (st more : List Event) (r : Bool) (x : Event) :
    pollLoop check wait fuel (st ++ x :: more) ≠ (r, st) := by
  intro h
  obtain ⟨ev, hev, -⟩ := pollLoop_events check wait (fun _ => True) trivial trivial hc fuel
    (st ++ x :: more)
  rw [h] at hev
  have hlen := congrArg List.length hev
  simp only [List.length_append, List.length_cons] at hlen
  omega

/-- One check of the file poll that receives a body. -/
theorem filePoll_step (cfg : Config) (w : World) (fileID : String) (st : List Event)
    (n : Nat) (b : Body)
    (h : answer w (sent st) (fileStatusRequest cfg fileID) = .body b) :
    pollLoop (isFileProcessed cfg w fileID) .waitingFile (n + 1) st =
      if gjsonString (gjsonGet b "status") = "processed" then
        (true, st ++ [.http .filePoll (fileStatusRequest cfg fileID) (.body b)])
      else
        pollLoop (isFileProcessed cfg w fileID) .waitingFile n
          (st ++ [.http .filePoll (fileStatusRequest cfg fileID) (.body b),
            .print .waitingFile, .sleep]) := by
  rw [pollLoop_succ, isFileProcessed_eq, h]
  by_cases hs : gjsonString (gjsonGet b "status") = "processed" <;>
    simp [Outcome.field, Outcome.report, hs]

/-- One check of the job poll that receives a body. -/
theorem jobPoll_step (cfg : Config) (w : World) (jobID : String) (st : List Event)
    (n : Nat) (b : Body)
    (h : answer w (sent st) (jobStatusRequest cfg jobID) = .body b) :
    pollLoop (isJobReady cfg w jobID) .waitingJob (n + 1) st =
      if gjsonString (gjsonGet b "status") = "succeeded" then
        (true, st ++ [.http .jobPoll (jobStatusRequest cfg jobID) (.body b)])
      else
        pollLoop (isJobReady cfg w jobID) .waitingJob n
          (st ++ [.http .jobPoll (jobStatusRequest cfg jobID) (.body b),
            .print .waitingJob, .sleep]) := by
  rw [pollLoop_succ, isJobReady_eq, h]
  by_cases hs : gjsonString (gjsonGet b "status") = "succeeded" <;>
    simp [Outcome.field, Outcome.report, hs]

/-- The first check of a loop that has fuel is in the trace. -/
theorem filePoll_first (cfg : Config) (w : World) (fileID : String) (st : List Event)
    (n : Nat) :
    ∃ o rest, (pollLoop (isFileProcessed cfg w fileID) .waitingFile (n + 1) st).2 =
      st ++ .http .filePoll (fileStatusRequest cfg fileID) o :: rest := by
  rw [pollLoop_succ, isFileProcessed_eq]
  split
  · exact ⟨_, _, rfl⟩
  · obtain ⟨ev, hev, -⟩ := pollLoop_events (isFileProcessed cfg w fileID) .waitingFile
      (fun _ => True) trivial trivial (isFileProcessed_extends cfg w fileID) n
      ((st ++ .http .filePoll (fileStatusRequest cfg fileID)
          (answer w (sent st) (fileStatusRequest cfg fileID)) ::
          (answer w (sent st) (fileStatusRequest cfg fileID)).report) ++
        [.print .waitingFile, .sleep])
    refine ⟨answer w (sent st) (fileStatusRequest cfg fileID),
      (answer w (sent st) (fileStatusRequest cfg fileID)).report ++
        [.print .waitingFile, .sleep] ++ ev, ?_⟩
    simp only at hev ⊢
    rw [hev]
    simp

theorem jobPoll_first (cfg : Config) (w : World) (jobID : String) (st : List Event)
    (n : Nat) :
    ∃ o rest, (pollLoop (isJobReady cfg w jobID) .waitingJob (n + 1) st).2 =
      st ++ .http .jobPoll (jobStatusRequest cfg jobID) o :: rest := by
  rw [pollLoop_succ, isJobReady_eq]
  split
  · exact ⟨_, _, rfl⟩
  · obtain ⟨ev, hev, -⟩ := pollLoop_events (isJobReady cfg w jobID) .waitingJob
      (fun _ => True) trivial trivial (isJobReady_extends cfg w jobID) n
      ((st ++ .http .jobPoll (jobStatusRequest cfg jobID)
          (answer w (sent st) (jobStatusRequest cfg jobID)) ::
          (answer w (sent st) (jobStatusRequest cfg jobID)).report) ++
        [.print .waitingJob, .sleep])
    refine ⟨answer w (sent st) (jobStatusRequest cfg jobID),
      (answer w (sent st) (jobStatusRequest cfg jobID)).report ++
        [.print .waitingJob, .sleep] ++ ev, ?_⟩
    simp only at hev ⊢
    rw [hev]
    simp

/-- C1: a status check of the file poll (in `main`) or of the job poll (in
`waitForJob`) that receives a response ends the loop right after that check
if and only if the status read from the response is the terminal value
("processed", "succeeded"); with any other status, a missing one included, the
loop prints its waiting message, sleeps and performs one more status check.
A response without a status member has neither terminal value. -/
theorem poll_exits_iff_terminal_status (cfg : Config) (w : World) (id : String)
    (st : List Event) (n : Nat) (b : Body) :
    (answer w (sent st) (fileStatusRequest cfg id) = .body b →
      (pollLoop (isFileProcessed cfg w id) .waitingFile (n + 1) st =
          (true, st ++ [.http .filePoll (fileStatusRequest cfg id) (.body b)]) ↔
        gjsonString (gjsonGet b "status") = "processed") ∧
      (gjsonString (gjsonGet b "status") ≠ "processed" →
        ∃ o rest, (pollLoop (isFileProcessed cfg w id) .waitingFile (n + 2) st).2 =
          st ++ [.http .filePoll (fileStatusRequest cfg id) (.body b),
            .print .waitingFile, .sleep,
            .http .filePoll (fileStatusRequest cfg id) o] ++ rest)) ∧
    (answer w (sent st) (jobStatusRequest cfg id) = .body b →
      (waitForJob cfg w id (n + 1) st =
          (true, st ++ [.http .jobPoll (jobStatusRequest cfg id) (.body b),
            .print .newline]) ↔
        gjsonString (gjsonGet b "status") = "succeeded") ∧
      (gjsonString (gjsonGet b "status") ≠ "succeeded" →
        ∃ o rest, (waitForJob cfg w id (n + 2) st).2 =
          st ++ [.http .jobPoll (jobStatusRequest cfg id) (.body b),
            .print .waitingJob, .sleep,
            .http .jobPoll (jobStatusRequest cfg id) o] ++ rest)) ∧
    ((∀ v, ("status", v) ∉ b) →
      gjsonString (gjsonGet b "status") ≠ "processed" ∧
      gjsonString (gjsonGet b "status") ≠ "succeeded") := by
  refine ⟨fun h => ⟨⟨fun hexit => ?_, fun hs => ?_⟩, fun hs => ?_⟩,
    fun h => ⟨⟨fun hexit => ?_, fun hs => ?_⟩, fun hs => ?_⟩, fun hlack => ?_⟩
  · by_contra hs
    rw [filePoll_step cfg w id st n b h, if_neg hs] at hexit
    have := pollLoop_ne_shorter (isFileProcessed cfg w id) .waitingFile
      (isFileProcessed_extends cfg w id) n
      (st ++ [.http .filePoll (fileStatusRequest cfg id) (.body b)]) [.sleep] true
      (.print .waitingFile)
    simp only [List.append_assoc, List.cons_append, List.nil_append] at this hexit
    exact this hexit
  · rw [filePoll_step cfg w id st n b h, if_pos hs]
  · rw [filePoll_step cfg w id st (n + 1) b h, if_neg hs]
    obtain ⟨o, rest, hr⟩ := filePoll_first cfg w id
      (st ++ [.http .filePoll (fileStatusRequest cfg id) (.body b), .print .waitingFile,
        .sleep]) n
    exact ⟨o, rest, by rw [hr]; simp⟩
  · by_contra hs
    unfold waitForJob at hexit
    rw [jobPoll_step cfg w id st n b h, if_neg hs] at hexit
    obtain ⟨ev, hev, -⟩ := pollLoop_events (isJobReady cfg w id) .waitingJob
      (fun _ => True) trivial trivial (isJobReady_extends cfg w id) n
      (st ++ [.http .jobPoll (jobStatusRequest cfg id) (.body b), .print .waitingJob,
        .sleep])
    rcases hp : pollLoop (isJobReady cfg w id) .waitingJob n
      (st ++ [.http .jobPoll (jobStatusRequest cfg id) (.body b), .print .waitingJob,
        .sleep]) with ⟨r, st1⟩
    rw [hp] at hexit hev
    cases r with
    | false => simp at hexit
    | true =>
      simp only [Prod.mk.injEq, true_and] at hexit
      simp only at hev
      rw [hev] at hexit
      have hlen := congrArg List.length hexit
      simp only [List.length_append, List.length_cons, List.length_nil] at hlen
      omega
  · unfold waitForJob
    rw [jobPoll_step cfg w id st n b h, if_pos hs]
    simp
  · unfold waitForJob
    rw [jobPoll_step cfg w id st (n + 1) b h, if_neg hs]
    obtain ⟨o, rest, hr⟩ := jobPoll_first cfg w id
      (st ++ [.http .jobPoll (jobStatusRequest cfg id) (.body b), .print .waitingJob,
        .sleep]) n
    rcases hp : pollLoop (isJobReady cfg w id) .waitingJob (n + 1)
      (st ++ [.http .jobPoll (jobStatusRequest cfg id) (.body b), .print .waitingJob,
        .sleep]) with ⟨r, st1⟩
    rw [hp] at hr
    simp only at hr
    subst hr
    cases r with
    | false => exact ⟨o, rest, by rw [hp]; simp⟩
    | true => exact ⟨o, rest ++ [.print .newline], by rw [hp]; simp⟩
  · rw [field_of_lacks b "status" hlack]
    exact ⟨by decide, by decide⟩

theorem jobPoll_run (cfg : Config) (w : World) (jobID : String) (k : Nat) :
    ∀ (N : Nat) (st : List Event),
      (∀ i, i < N → ∃ b,
        answer w (sent st ++ List.replicate i (jobStatusRequest cfg jobID))
          (jobStatusRequest cfg jobID) = .body b ∧
        gjsonString (gjsonGet b "status") ≠ "succeeded") →
      (∃ b, answer w (sent st ++ List.replicate N (jobStatusRequest cfg jobID))
          (jobStatusRequest cfg jobID) = .body b ∧
        gjsonString (gjsonGet b "status") = "succeeded") →
      ∃ st1, pollLoop (isJobReady cfg w jobID) .waitingJob (N + 1 + k) st = (true, st1) ∧
        sent st1 = sent st ++ List.replicate (N + 1) (jobStatusRequest cfg jobID) ∧
        sentSites st1 = sentSites st ++ List.replicate (N + 1) Site.jobPoll := by
  intro N
  induction N with
  | zero =>
    intro st _ hdone
    obtain ⟨b, hb, hs⟩ := hdone
    simp only [List.replicate_zero, List.append_nil] at hb
    refine ⟨st ++ [.http .jobPoll (jobStatusRequest cfg jobID) (.body b)], ?_, ?_, ?_⟩
    · rw [show 0 + 1 + k = k + 1 by omega, jobPoll_step cfg w jobID st k b hb, if_pos hs]
    · simp [sent_append, sent]
    · simp [sentSites_append, sentSites]
  | succ N ih =>
    intro st hpending hdone
    obtain ⟨b, hb, hs⟩ := hpending 0 (Nat.succ_pos N)
    simp only [List.replicate_zero, List.append_nil] at hb
    have hsent : sent (st ++ [.http .jobPoll (jobStatusRequest cfg jobID) (.body b),
        .print .waitingJob, .sleep]) = sent st ++ [jobStatusRequest cfg jobID] := by
      simp [sent_append, sent]
    have hsites : sentSites (st ++ [.http .jobPoll (jobStatusRequest cfg jobID) (.body b),
        .print .waitingJob, .sleep]) = sentSites st ++ [Site.jobPoll] := by
      simp [sentSites_append, sentSites]
    have hshift : ∀ i, sent st ++ [jobStatusRequest cfg jobID] ++
        List.replicate i (jobStatusRequest cfg jobID) =
        sent st ++ List.replicate (i + 1) (jobStatusRequest cfg jobID) := by
      intro i
      simp [List.replicate_succ]
    obtain ⟨st1, hrun, hreq, hsite⟩ := ih
      (st ++ [.http .jobPoll (jobStatusRequest cfg jobID) (.body b), .print .waitingJob,
        .sleep])
      (by
        intro i hi
        rw [hsent, hshift]
        exact hpending (i + 1) (by omega))
      (by
        rw [hsent, hshift]
        exact hdone)
    refine ⟨st1, ?_, ?_, ?_⟩
    · rw [show N + 1 + 1 + k = (N + 1 + k) + 1 by omega,
        jobPoll_step cfg w jobID st (N + 1 + k) b hb, if_neg hs]
      exact hrun
    · rw [hreq, hsent]
      simp [List.replicate_succ]
    · rw [hsite, hsites]
      simp [List.replicate_succ]

/-- C2: there is no cap on the number of checks.  For every N, when the first
N job-status requests are answered with a status other than "succeeded" and
the next one with "succeeded", `waitForJob` returns, and it has sent exactly
N + 1 requests, all of them job-status requests for the job identifier.  The
bound of the model only has to allow N + 1 checks. -/
theorem waitForJob_returns_after_N_plus_one (cfg : Config) (w : World) (jobID : String)
    (st : List Event) (N k : Nat)
    (hpending : ∀ i, i < N → ∃ b,
      answer w (sent st ++ List.replicate i (jobStatusRequest cfg jobID))
        (jobStatusRequest cfg jobID) = .body b ∧
      gjsonString (gjsonGet b "status") ≠ "succeeded")
    (hdone : ∃ b, answer w (sent st ++ List.replicate N (jobStatusRequest cfg jobID))
        (jobStatusRequest cfg jobID) = .body b ∧
      gjsonString (gjsonGet b "status") = "succeeded") :
    ∃ st1, waitForJob cfg w jobID (N + 1 + k) st = (true, st1) ∧
      sent st1 = sent st ++ List.replicate (N + 1) (jobStatusRequest cfg jobID) ∧
      sentSites st1 = sentSites st ++ List.replicate (N + 1) Site.jobPoll := by
  obtain ⟨st1, hrun, hreq, hsite⟩ := jobPoll_run cfg w jobID k N st hpending hdone
  refine ⟨st1 ++ [.print .newline], ?_, ?_, ?_⟩
  · unfold waitForJob
    rw [hrun]
  · simp [sent_append, sent, hreq]
  · simp [sentSites_append, sentSites, hsite]

/-- C3: when the upload is answered with a body that has no `id` member,
`uploadFile` returns the empty identifier, and `main` prints the failure
message and returns: the upload is the only request of the run. -/
theorem upload_without_id_aborts (cfg : Config) (w : World) (fuel : Nat)
    (content : String) (b : Body)
    (hfile : w.localFile cfg.filePath = .ok content)
    (hans : answer w [] (uploadRequest cfg w content) = .body b)
    (hid : ∀ v, ("id", v) ∉ b) :
    (uploadFile cfg w [.print .starting]).1 = "" ∧
    main cfg w fuel = (true, [.print .starting,
      .http .upload (uploadRequest cfg w content) (.body b), .print .uploadFailed]) ∧
    sent (main cfg w fuel).2 = [uploadRequest cfg w content] ∧
    sentSites (main cfg w fuel).2 = [Site.upload] := by
  have hu : uploadFile cfg w [.print .starting] =
      ("", [.print .starting, .http .upload (uploadRequest cfg w content) (.body b)]) := by
    rw [uploadFile_ok cfg w _ content hfile]
    simp [sent, hans, Outcome.field, Outcome.report, field_of_lacks b "id" hid]
  have hm : main cfg w fuel = (true, [.print .starting,
      .http .upload (uploadRequest cfg w content) (.body b), .print .uploadFailed]) := by
    unfold main
    rw [hu]
    simp
  refine ⟨by rw [hu], hm, ?_, ?_⟩
  · rw [hm]; simp [sent]
  · rw [hm]; simp [sentSites]

/-! ## The credential -/

theorem init_of_done (args : List String) (cfg : Config)
    (h : flagParse args noFlags = (.done, cfg)) :
    init args =
      if cfg.filePath = "" ∨ cfg.token = "" then
        (some 1, [.print .failedToStart, .print .usage], cfg)
      else (none, [], cfg) := by
  unfold init
  rw [h]

theorem init_config (args : List String) : (init args).2.2 = (flagParse args noFlags).2 := by
  unfold init
  rcases hp : flagParse args noFlags with ⟨e, cfg⟩
  cases e <;> simp
  split <;> rfl

theorem init_not_http (args : List String) : ∀ e ∈ (init args).2.1, e.isHttp = false := by
  unfold init
  rcases hp : flagParse args noFlags with ⟨e, cfg⟩
  cases e <;> simp [Event.isHttp]
  split <;> simp [Event.isHttp]

theorem init_failed (args : List String)
    (h1 : (flagParse args noFlags).1 ≠ .done) (h2 : (flagParse args noFlags).1 ≠ .help) :
    (init args).1 = some 2 := by
  unfold init
  rcases hp : flagParse args noFlags with ⟨e, cfg⟩
  rw [hp] at h1 h2
  cases e <;> simp_all

theorem sent_of_not_http (t : List Event) (h : ∀ e ∈ t, e.isHttp = false) : sent t = [] := by
  induction t with
  | nil => rfl
  | cons e t ih =>
    have he := h e (List.mem_cons_self _ _)
    have ht := ih (fun x hx => h x (List.mem_cons_of_mem _ hx))
    cases e with
    | http s r o => simp [Event.isHttp] at he
    | print m => simpa [sent] using ht
    | sleep => simpa [sent] using ht

/-- The run of the process is the start-up output when `init` exits, the run
of `main` on the values of the flags otherwise. -/
theorem program_eq (args : List String) (w : World) (fuel : Nat) :
    program args w fuel =
      match (init args).1 with
      | some code => (some code, (init args).2.1)
      | none =>
        (if (main (flagParse args noFlags).2 w fuel).1 = true then some 0 else none,
          (main (flagParse args noFlags).2 w fuel).2) := by
  unfold program
  rw [← init_config]
  rcases hi : init args with ⟨c, st, cfg⟩
  cases c with
  | some code => rfl
  | none =>
    simp only
    rcases hm : main cfg w fuel with ⟨r, st1⟩
    cases r <;> simp

theorem main_requests_authorized (cfg : Config) (w : World) (fuel : Nat) :
    (main cfg w fuel).2.all (fun e => match e with
      | .http _ r _ =>
        decide (List.lookup "Authorization" r.header = some ["Bearer " ++ cfg.token])
      | _ => true) = true := by
  have hfile : ∀ (fid : String) (ev : List Event),
      ev.all (Event.inPoll .filePoll (fileStatusRequest cfg fid)) = true →
      ev.all (fun e => match e with
        | .http _ r _ =>
          decide (List.lookup "Authorization" r.header = some ["Bearer " ++ cfg.token])
        | _ => true) = true := by
    intro fid ev h
    refine all_of_inPoll _ _ _ ev ?_ h
    intro e he
    cases e with
    | http s r o =>
      simp only [Event.inPoll, decide_eq_true_eq] at he
      rw [he.2]
      simp [fileStatusRequest, List.lookup]
    | print m => rfl
    | sleep => rfl
  have hjob : ∀ (jid : String) (ev : List Event),
      ev.all (Event.inPoll .jobPoll (jobStatusRequest cfg jid)) = true →
      ev.all (fun e => match e with
        | .http _ r _ =>
          decide (List.lookup "Authorization" r.header = some ["Bearer " ++ cfg.token])
        | _ => true) = true := by
    intro jid ev h
    refine all_of_inPoll _ _ _ ev ?_ h
    intro e he
    cases e with
    | http s r o =>
      simp only [Event.inPoll, decide_eq_true_eq] at he
      rw [he.2]
      simp [jobStatusRequest, List.lookup]
    | print m => rfl
    | sleep => rfl
  have hrep : ∀ o : Outcome, o.report.all (fun e => match e with
        | .http _ r _ =>
          decide (List.lookup "Authorization" r.header = some ["Bearer " ++ cfg.token])
        | _ => true) = true := fun o => report_all _ o rfl rfl rfl
  have htail : ∀ o : Outcome, (retrieveTail o).all (fun e => match e with
        | .http _ r _ =>
          decide (List.lookup "Authorization" r.header = some ["Bearer " ++ cfg.token])
        | _ => true) = true := by
    intro o
    exact retrieveTail_all _ o rfl rfl rfl rfl (fun _ => rfl)
  have hshape := main_shape cfg w fuel
  generalize main cfg w fuel = res at hshape ⊢
  cases hshape with
  | localFailure m hm => simp
  | uploadFailure content o hid =>
    simp [List.all_append, hrep, uploadRequest, List.lookup]
  | filePollGoesOn content bu ev1 hfid hev1 =>
    simp [headFile, List.all_append, hfile _ _ hev1, uploadRequest, List.lookup]
  | jobCreationFailure content bu ev1 o hfid hev1 hid =>
    simp [headFile, List.all_append, hfile _ _ hev1, hrep, uploadRequest, jobCreationRequest,
      List.lookup]
  | jobPollGoesOn content bu ev1 bc ev2 hfid hev1 hjid hev2 =>
    simp [headJob, headFile, List.all_append, hfile _ _ hev1, hjob _ _ hev2, uploadRequest,
      jobCreationRequest, List.lookup]
  | retrieval content bu ev1 bc ev2 o hfid hev1 hjid hev2 =>
    simp [headJob, headFile, List.all_append, hfile _ _ hev1, hjob _ _ hev2, htail,
      uploadRequest, jobCreationRequest, jobStatusRequest, List.lookup]

/-- C8: in every run, every pass through the request sequence (the upload,
each file-status check, the job creation, each job-status check, the result
retrieval) has a request whose `Authorization` header is the single value
"Bearer " followed by the token: in every run of `main` on any values of the
two variables, and in every run of the process on any command line, where the
token is the value the command line gives to `-token`. -/
theorem every_request_carries_bearer_token (cfg : Config) (args : List String) (w : World)
    (fuel : Nat) (s : Site) (r : Request) (o : Outcome) :
    (Event.http s r o ∈ (main cfg w fuel).2 →
      List.lookup "Authorization" r.header = some ["Bearer " ++ cfg.token]) ∧
    (Event.http s r o ∈ (program args w fuel).2 →
      List.lookup "Authorization" r.header =
        some ["Bearer " ++ (flagParse args noFlags).2.token]) := by
  have hmain : ∀ c : Config, Event.http s r o ∈ (main c w fuel).2 →
      List.lookup "Authorization" r.header = some ["Bearer " ++ c.token] := by
    intro c hc
    have := List.all_eq_true.mp (main_requests_authorized c w fuel) _ hc
    simpa using this
  refine ⟨hmain cfg, fun h => ?_⟩
  rw [program_eq] at h
  split at h
  · have := init_not_http args _ h
    simp [Event.isHttp] at this
  · exact hmain _ h

/-! ## Start-up -/

/-- C10, as the code has it.  On a command line that `flag.Parse` reads to its
end: when the value of `-file` or of `-token` is empty, `init` ends the process
with exit code 1 before `main` runs, so the run has no request; when both are
non-empty `init` does not exit and the run is the run of `main` on the two
values.  On a command line that asks for help the process ends in `flag.Parse`
with exit code 0, and on one with an error with exit code 2, in both cases
before the check of the values and without a request. -/
theorem startup_exit_codes (args : List String) (w : World) (fuel : Nat) (cfg : Config) :
    (flagParse args noFlags = (.done, cfg) → (cfg.filePath = "" ∨ cfg.token = "") →
      (init args).1 = some 1 ∧
      program args w fuel = (some 1, [.print .failedToStart, .print .usage]) ∧
      sent (program args w fuel).2 = []) ∧
    (flagParse args noFlags = (.done, cfg) → cfg.filePath ≠ "" → cfg.token ≠ "" →
      (init args).1 = none ∧ (program args w fuel).2 = (main cfg w fuel).2) ∧
    (flagParse args noFlags = (.help, cfg) →
      (init args).1 = some 0 ∧ program args w fuel = (some 0, [.print .usage])) ∧
    ((flagParse args noFlags).1 ≠ .done → (flagParse args noFlags).1 ≠ .help →
      (init args).1 = some 2 ∧ (program args w fuel).1 = some 2 ∧
      sent (program args w fuel).2 = [] ∧
      ∀ e ∈ (program args w fuel).2, e.isHttp = false) := by
  refine ⟨fun hp hempty => ?_, fun hp hf ht => ?_, fun hp => ?_, fun h1 h2 => ?_⟩
  · have hi := init_of_done args cfg hp
    rw [if_pos hempty] at hi
    have hprog : program args w fuel = (some 1, [.print .failedToStart, .print .usage]) := by
      rw [program_eq, hi]
    exact ⟨by rw [hi], hprog, by rw [hprog]; rfl⟩
  · have hi := init_of_done args cfg hp
    rw [if_neg (by simp [hf, ht])] at hi
    refine ⟨by rw [hi], ?_⟩
    rw [program_eq, hi, hp]
  · have hi : init args = (some 0, [.print .usage], cfg) := by
      unfold init
      rw [hp]
    exact ⟨by rw [hi], by rw [program_eq, hi]⟩
  · have hi := init_failed args h1 h2
    have hprog : program args w fuel = (some 2, (init args).2.1) := by
      rw [program_eq, hi]
    refine ⟨hi, by rw [hprog], ?_, ?_⟩
    · rw [hprog]; exact sent_of_not_http _ (init_not_http args)
    · rw [hprog]; exact init_not_http args

/-- A run cut at a job creation that was answered with a body: either the
identifier of the body is empty and the failure message is all that follows,
or the identifier is not empty. -/
theorem main_cut_jobCreate (cfg : Config) (w : World) (fuel : Nat) (pre post : List Event)
    (r : Request) (b : Body)
    (h : (main cfg w fuel).2 = pre ++ .http .jobCreate r (.body b) :: post) :
    (gjsonString (gjsonGet b "id") = "" ∧ (main cfg w fuel).1 = true ∧
      post = [.print .jobCreationFailed] ∧
      pre.all (fun e => !e.atSite .jobPoll && !e.atSite .retrieve) = true) ∨
    gjsonString (gjsonGet b "id") ≠ "" := by
  have hshape := main_shape cfg w fuel
  generalize main cfg w fuel = res at hshape h ⊢
  have hrep : ∀ o : Outcome, o.report.all (fun y => !y.atSite .jobCreate) = true :=
    fun o => report_all _ o rfl rfl rfl
  have hfile : ∀ e req, Event.inPoll .filePoll req e = true → (!e.atSite .jobCreate) = true :=
    fun e req => inPoll_not_atSite _ _ req (by decide) e
  have hjob : ∀ e req, Event.inPoll .jobPoll req e = true → (!e.atSite .jobCreate) = true :=
    fun e req => inPoll_not_atSite _ _ req (by decide) e
  cases hshape with
  | localFailure m hm =>
    exact (no_cut (fun e => e.atSite .jobCreate) _ pre post (.http .jobCreate r (.body b))
      (by simp [Event.atSite]) rfl
      h.symm).elim
  | uploadFailure content o1 hid =>
    refine (no_cut (fun e => e.atSite .jobCreate) _ pre post (.http .jobCreate r (.body b))
      ?_ rfl h.symm).elim
    simp only [List.all_append, hrep]
    simp [Event.atSite]
  | filePollGoesOn content bu ev1 hfid hev1 =>
    exact (no_cut (fun e => e.atSite .jobCreate) _ pre post (.http .jobCreate r (.body b))
      (headFile_all _ cfg w content bu ev1 hev1 (fun e => hfile e _) rfl rfl rfl) rfl
      h.symm).elim
  | jobCreationFailure content bu ev1 o1 hfid hev1 hid =>
    have hA := headFile_all (fun y => !y.atSite .jobCreate) cfg w content bu ev1 hev1
      (fun e => hfile e _) rfl rfl rfl
    obtain ⟨h1, h2, h3⟩ := cut_unique (fun e => e.atSite .jobCreate)
      (headFile cfg w content bu ev1 ++
        [.print .newline, .print .fileProcessingCompleted, .print .startingJob])
      (o1.report ++ [.print .jobCreationFailed]) pre post
      (.http .jobCreate (jobCreationRequest cfg (gjsonString (gjsonGet bu "id"))) o1)
      (.http .jobCreate r (.body b))
      (by simp only [List.all_append, hA]; simp [Event.atSite])
      (by simp only [List.all_append, hrep]; simp [Event.atSite]) rfl
      (by rw [← h]; simp)
    simp only [Event.http.injEq, true_and] at h2
    rw [← h2.2] at h3 hid
    by_cases hb : gjsonString (gjsonGet b "id") = ""
    · refine Or.inl ⟨hb, rfl, by rw [h3]; rfl, ?_⟩
      rw [h1]
      have hA2 := headFile_all (fun e => !e.atSite .jobPoll && !e.atSite .retrieve) cfg w
        content bu ev1 hev1
        (fun e he => by
          have a := inPoll_not_atSite .filePoll .jobPoll _ (by decide) e he
          have c := inPoll_not_atSite .filePoll .retrieve _ (by decide) e he
          simp only [a, c, Bool.and_self])
        rfl rfl rfl
      simp only [List.all_append, hA2]
      simp [Event.atSite]
    · exact Or.inr hb
  | jobPollGoesOn content bu ev1 bc ev2 hfid hev1 hjid hev2 =>
    have hA := headFile_all (fun y => !y.atSite .jobCreate) cfg w content bu ev1 hev1
      (fun e => hfile e _) rfl rfl rfl
    have hB := all_of_inPoll (fun y => !y.atSite .jobCreate) _ _ ev2 (fun e => hjob e _) hev2
    obtain ⟨h1, h2, h3⟩ := cut_unique (fun e => e.atSite .jobCreate)
      (headFile cfg w content bu ev1 ++
        [.print .newline, .print .fileProcessingCompleted, .print .startingJob])
      (.print (.jobCreated (gjsonString (gjsonGet bc "id"))) :: ev2) pre post
      (.http .jobCreate (jobCreationRequest cfg (gjsonString (gjsonGet bu "id")))
        (.body bc)) (.http .jobCreate r (.body b))
      (by simp only [List.all_append, hA]; simp [Event.atSite])
      (by simp only [List.all_cons, hB]; simp [Event.atSite]) rfl
      (by rw [← h]; simp [headJob])
    simp only [Event.http.injEq, true_and, Outcome.body.injEq] at h2
    rw [h2.2]
    exact Or.inr hjid
  | retrieval content bu ev1 bc ev2 o1 hfid hev1 hjid hev2 =>
    have hA := headFile_all (fun y => !y.atSite .jobCreate) cfg w content bu ev1 hev1
      (fun e => hfile e _) rfl rfl rfl
    have hB := all_of_inPoll (fun y => !y.atSite .jobCreate) _ _ ev2 (fun e => hjob e _) hev2
    have hT := retrieveTail_all (fun y => !y.atSite .jobCreate) o1 rfl rfl rfl rfl
      (fun _ => rfl)
    obtain ⟨h1, h2, h3⟩ := cut_unique (fun e => e.atSite .jobCreate)
      (headFile cfg w content bu ev1 ++
        [.print .newline, .print .fileProcessingCompleted, .print .startingJob])
      (.print (.jobCreated (gjsonString (gjsonGet bc "id"))) :: ev2 ++
        [.print .jobCompleted, .print .elapsed,
          .http .retrieve (jobStatusRequest cfg (gjsonString (gjsonGet bc "id"))) o1] ++
        retrieveTail o1) pre post
      (.http .jobCreate (jobCreationRequest cfg (gjsonString (gjsonGet bu "id")))
        (.body bc)) (.http .jobCreate r (.body b))
      (by simp only [List.all_append, hA]; simp [Event.atSite])
      (by simp only [List.all_append, List.all_cons, hB, hT]; simp [Event.atSite]) rfl
      (by rw [← h]; simp [headJob])
    simp only [Event.http.injEq, true_and, Outcome.body.injEq] at h2
    rw [h2.2]
    exact Or.inr hjid

/-- C9: for every file identifier, `createFineTuningJob` makes one pass through
the request sequence with a POST to `/fine_tuning/jobs` whose JSON body has the
two members `training_file`, the file identifier, and `model`, the fixed
"gpt-3.5-turbo-0613"; when a body comes back it returns the string of its `id`
member, the empty string when there is none.  A run of `main` cut at a job
creation whose response has no `id` member ends there with the failure
message: it has no job-status request and no retrieval. -/
theorem job_creation_request_and_result (cfg : Config) (w : World) (fileID : String)
    (st : List Event) (fuel : Nat) :
    (∃ r o, createFineTuningJob cfg w fileID st =
        (o.field "id", st ++ .http .jobCreate r o :: o.report) ∧
      o = answer w (sent st) r ∧
      r.method = "POST" ∧ r.url = "https://api.openai.com/v1/fine_tuning/jobs" ∧
      r.body = .json [("training_file", fileID), ("model", "gpt-3.5-turbo-0613")] ∧
      (∀ b, o = .body b →
        (createFineTuningJob cfg w fileID st).1 = gjsonString (gjsonGet b "id") ∧
        ((∀ v, ("id", v) ∉ b) → (createFineTuningJob cfg w fileID st).1 = ""))) ∧
    (∀ pre r b post,
      (main cfg w fuel).2 = pre ++ .http .jobCreate r (.body b) :: post →
      (∀ v, ("id", v) ∉ b) →
      (main cfg w fuel).1 = true ∧ post = [.print .jobCreationFailed] ∧
      ∀ s r1 o1, Event.http s r1 o1 ∈ (main cfg w fuel).2 → s ≠ .jobPoll ∧ s ≠ .retrieve) := by
  constructor
  · refine ⟨jobCreationRequest cfg fileID,
      answer w (sent st) (jobCreationRequest cfg fileID), createFineTuningJob_eq cfg w fileID st,
      rfl, rfl, rfl, rfl, ?_⟩
    intro b hb
    rw [createFineTuningJob_eq, hb]
    exact ⟨rfl, fun hlack => field_of_lacks b "id" hlack⟩
  · intro pre r b post h hlack
    rcases main_cut_jobCreate cfg w fuel pre post r b h with ⟨-, hret, hpost, hpre⟩ | hne
    · refine ⟨hret, hpost, ?_⟩
      intro s r1 o1 hmem
      rw [h, hpost] at hmem
      simp only [List.mem_append, List.mem_cons, List.mem_singleton, Event.http.injEq,
        List.not_mem_nil, or_false, reduceCtorEq] at hmem
      rcases hmem with hmem | hmem
      · have := List.all_eq_true.mp hpre _ hmem
        simpa [Event.atSite] using this
      · rw [hmem.1]; exact ⟨by decide, by decide⟩
    · exact absurd (field_of_lacks b "id" hlack) hne

/-- A run cut at a result retrieval: `main` returned, what follows is the
report of the outcome, and no model name was printed before. -/
theorem main_cut_retrieve (cfg : Config) (w : World) (fuel : Nat) (pre post : List Event)
    (r : Request) (o : Outcome)
    (h : (main cfg w fuel).2 = pre ++ .http .retrieve r o :: post) :
    (main cfg w fuel).1 = true ∧ post = retrieveTail o ∧
      pre.all (fun e => !e.printsModel) = true := by
  have hshape := main_shape cfg w fuel
  generalize main cfg w fuel = res at hshape h ⊢
  have hrep : ∀ o : Outcome, o.report.all (fun y => !y.atSite .retrieve) = true :=
    fun o => report_all _ o rfl rfl rfl
  have hfile : ∀ e req, Event.inPoll .filePoll req e = true → (!e.atSite .retrieve) = true :=
    fun e req => inPoll_not_atSite _ _ req (by decide) e
  have hjob : ∀ e req, Event.inPoll .jobPoll req e = true → (!e.atSite .retrieve) = true :=
    fun e req => inPoll_not_atSite _ _ req (by decide) e
  cases hshape with
  | localFailure m hm =>
    exact (no_cut (fun e => e.atSite .retrieve) _ pre post (.http .retrieve r o)
      (by simp [Event.atSite]) rfl h.symm).elim
  | uploadFailure content o1 hid =>
    refine (no_cut (fun e => e.atSite .retrieve) _ pre post (.http .retrieve r o)
      ?_ rfl h.symm).elim
    simp only [List.all_append, hrep]
    simp [Event.atSite]
  | filePollGoesOn content bu ev1 hfid hev1 =>
    exact (no_cut (fun e => e.atSite .retrieve) _ pre post (.http .retrieve r o)
      (headFile_all _ cfg w content bu ev1 hev1 (fun e => hfile e _) rfl rfl rfl) rfl
      h.symm).elim
  | jobCreationFailure content bu ev1 o1 hfid hev1 hid =>
    have hA := headFile_all (fun y => !y.atSite .retrieve) cfg w content bu ev1 hev1
      (fun e => hfile e _) rfl rfl rfl
    refine (no_cut (fun e => e.atSite .retrieve) _ pre post (.http .retrieve r o)
      ?_ rfl h.symm).elim
    simp only [List.all_append, hA, hrep]
    simp [Event.atSite]
  | jobPollGoesOn content bu ev1 bc ev2 hfid hev1 hjid hev2 =>
    exact (no_cut (fun e => e.atSite .retrieve) _ pre post (.http .retrieve r o)
      (headJob_all _ cfg w content bu ev1 bc ev2 hev1 hev2 (fun e => hfile e _)
        (fun e => hjob e _) rfl rfl rfl rfl rfl rfl rfl rfl) rfl h.symm).elim
  | retrieval content bu ev1 bc ev2 o1 hfid hev1 hjid hev2 =>
    have hA := headJob_all (fun y => !y.atSite .retrieve) cfg w content bu ev1 bc ev2 hev1 hev2
      (fun e => hfile e _) (fun e => hjob e _) rfl rfl rfl rfl rfl rfl rfl rfl
    have hT := retrieveTail_all (fun y => !y.atSite .retrieve) o1 rfl rfl rfl rfl
      (fun _ => rfl)
    obtain ⟨h1, h2, h3⟩ := cut_unique (fun e => e.atSite .retrieve)
      (headJob cfg w content bu ev1 bc ev2 ++ [.print .jobCompleted, .print .elapsed])
      (retrieveTail o1) pre post
      (.http .retrieve (jobStatusRequest cfg (gjsonString (gjsonGet bc "id"))) o1)
      (.http .retrieve r o)
      (by simp only [List.all_append, hA]; simp [Event.atSite]) hT rfl
      (by rw [← h]; simp)
    simp only [Event.http.injEq, true_and] at h2
    refine ⟨rfl, by rw [h3, h2.2], ?_⟩
    rw [h1]
    have hM := headJob_all (fun y => !y.printsModel) cfg w content bu ev1 bc ev2 hev1 hev2
      (fun e => inPoll_not_printsModel _ _ e) (fun e => inPoll_not_printsModel _ _ e)
      rfl rfl rfl rfl rfl rfl rfl rfl
    simp only [List.all_append, hM]
    simp [Event.printsModel]

/-- C4, as the code has it: in a run that receives a response to the result
retrieval, the program reads the string of the `fine_tuned_model` member.
When the member is missing, and also when it is there with an empty string
(`null`, `""`), the run ends with the line "No fine-tuned model available."
and prints no model name at all; when the string is not empty the run ends
with the line that reports that string as the fine-tuned model. -/
theorem final_report_follows_model_string (cfg : Config) (w : World) (fuel : Nat)
    (pre post : List Event) (r : Request) (b : Body)
    (h : (main cfg w fuel).2 = pre ++ .http .retrieve r (.body b) :: post) :
    ((∀ v, ("fine_tuned_model", v) ∉ b) → gjsonString (gjsonGet b "fine_tuned_model") = "") ∧
    (gjsonString (gjsonGet b "fine_tuned_model") = "" →
      post = [.print .noModel] ∧
      Msg.text .noModel = "No fine-tuned model available.\n" ∧
      ∀ e ∈ (main cfg w fuel).2, e.printsModel = false) ∧
    (gjsonString (gjsonGet b "fine_tuned_model") ≠ "" →
      post = [.print (.modelReady (gjsonString (gjsonGet b "fine_tuned_model")))] ∧
      Msg.text (.modelReady (gjsonString (gjsonGet b "fine_tuned_model"))) =
        "\nFine-tuned model ready to use: " ++ gjsonString (gjsonGet b "fine_tuned_model") ++
          "\n") := by
  obtain ⟨-, hpost, hpre⟩ := main_cut_retrieve cfg w fuel pre post r (.body b) h
  rw [retrieveTail_body] at hpost
  refine ⟨fun hlack => field_of_lacks b _ hlack, fun hempty => ?_, fun hne => ?_⟩
  · rw [if_pos hempty] at hpost
    refine ⟨hpost, rfl, ?_⟩
    intro e he
    rw [h, hpost] at he
    simp only [List.mem_append, List.mem_cons, List.mem_singleton, List.not_mem_nil,
      or_false] at he
    rcases he with he | he | he
    · have := List.all_eq_true.mp hpre _ he
      simpa using this
    · rw [he]; rfl
    · rw [he]; rfl
  · rw [if_neg hne] at hpost
    exact ⟨hpost, rfl⟩

theorem report_ne_nil (o : Outcome) (h : o.failed = true) : o.report ≠ [] := by
  cases o <;> simp_all [Outcome.report, Outcome.failed]

/-- A run cut at a failed request of a step that runs its request once:
`main` returned, and what follows is the failure message of the request and
the failure message of the step. -/
theorem main_cut_failedOnce (cfg : Config) (w : World) (fuel : Nat) (pre post : List Event)
    (s : Site) (r : Request) (o : Outcome)
    (h : (main cfg w fuel).2 = pre ++ .http s r o :: post)
    (hq : (Event.http s r o).failedOnce = true) :
    (main cfg w fuel).1 = true ∧
      post = o.report ++
        (if s = .upload then [.print .uploadFailed]
          else if s = .jobCreate then [.print .jobCreationFailed] else []) := by
  have hshape := main_shape cfg w fuel
  generalize main cfg w fuel = res at hshape h ⊢
  have hrep : ∀ o : Outcome, o.report.all (fun y => !y.failedOnce) = true :=
    fun o => report_all _ o rfl rfl rfl
  have hfile : ∀ e req, Event.inPoll .filePoll req e = true → (!e.failedOnce) = true :=
    fun e req => inPoll_not_failedOnce_file req e
  have hjob : ∀ e req, Event.inPoll .jobPoll req e = true → (!e.failedOnce) = true :=
    fun e req => inPoll_not_failedOnce_job req e
  cases hshape with
  | localFailure m hm =>
    exact (no_cut (fun e => e.failedOnce) _ pre post (.http s r o)
      (by simp [Event.failedOnce]) hq h.symm).elim
  | uploadFailure content o1 hid =>
    obtain ⟨h1, h2, h3⟩ := cut_unique (fun e => e.failedOnce) [.print .starting]
      (o1.report ++ [.print .uploadFailed]) pre post
      (.http .upload (uploadRequest cfg w content) o1) (.http s r o)
      (by simp [Event.failedOnce])
      (by simp only [List.all_append, hrep]; simp [Event.failedOnce]) hq
      (by rw [← h]; simp)
    simp only [Event.http.injEq] at h2
    rw [h2.1, h2.2.2, h3]
    simp
  | filePollGoesOn content bu ev1 hfid hev1 =>
    exact (no_cut (fun e => e.failedOnce) _ pre post (.http s r o)
      (headFile_all _ cfg w content bu ev1 hev1 (fun e => hfile e _) rfl rfl rfl) hq
      h.symm).elim
  | jobCreationFailure content bu ev1 o1 hfid hev1 hid =>
    have hA := headFile_all (fun y => !y.failedOnce) cfg w content bu ev1 hev1
      (fun e => hfile e _) rfl rfl rfl
    obtain ⟨h1, h2, h3⟩ := cut_unique (fun e => e.failedOnce)
      (headFile cfg w content bu ev1 ++
        [.print .newline, .print .fileProcessingCompleted, .print .startingJob])
      (o1.report ++ [.print .jobCreationFailed]) pre post
      (.http .jobCreate (jobCreationRequest cfg (gjsonString (gjsonGet bu "id"))) o1)
      (.http s r o)
      (by simp only [List.all_append, hA]; simp [Event.failedOnce])
      (by simp only [List.all_append, hrep]; simp [Event.failedOnce]) hq
      (by rw [← h]; simp)
    simp only [Event.http.injEq] at h2
    rw [h2.1, h2.2.2, h3]
    simp
  | jobPollGoesOn content bu ev1 bc ev2 hfid hev1 hjid hev2 =>
    exact (no_cut (fun e => e.failedOnce) _ pre post (.http s r o)
      (headJob_all _ cfg w content bu ev1 bc ev2 hev1 hev2 (fun e => hfile e _)
        (fun e => hjob e _) rfl rfl rfl rfl rfl rfl rfl rfl) hq h.symm).elim
  | retrieval content bu ev1 bc ev2 o1 hfid hev1 hjid hev2 =>
    have hA := headJob_all (fun y => !y.failedOnce) cfg w content bu ev1 bc ev2 hev1 hev2
      (fun e => hfile e _) (fun e => hjob e _) rfl rfl rfl rfl rfl rfl rfl rfl
    have hT := retrieveTail_all (fun y => !y.failedOnce) o1 rfl rfl rfl rfl (fun _ => rfl)
    obtain ⟨h1, h2, h3⟩ := cut_unique (fun e => e.failedOnce)
      (headJob cfg w content bu ev1 bc ev2 ++ [.print .jobCompleted, .print .elapsed])
      (retrieveTail o1) pre post
      (.http .retrieve (jobStatusRequest cfg (gjsonString (gjsonGet bc "id"))) o1)
      (.http s r o)
      (by simp only [List.all_append, hA]; simp [Event.failedOnce]) hT hq
      (by rw [← h]; simp)
    simp only [Event.http.injEq] at h2
    have hfail : o.failed = true := by
      rw [h2.1] at hq
      simpa [Event.failedOnce] using hq
    rw [h2.1, h3, ← h2.2.2, retrieveTail_failed o hfail]
    simp

/-- C7, as the code has it.  In the three steps that run their request once
(upload, job creation, result retrieval) a failed request, be it at the
construction, at the transport or at the reading of the response, is reported
by its failure message, and `main` returns: nothing follows but that message
and the failure message of the step, so the request is not repeated and no
other request is made.  In the two polling steps a failed status request is
reported by its failure message and counts as a check that said no: the loop
prints its waiting message, sleeps and checks again. -/
theorem failed_request_handling (cfg : Config) (w : World) (fuel : Nat)
    (pre post : List Event) (s : Site) (r : Request) (o : Outcome)
    (id : String) (st : List Event) (n : Nat) :
    ((main cfg w fuel).2 = pre ++ .http s r o :: post → o.failed = true →
      (s = .upload ∨ s = .jobCreate ∨ s = .retrieve) →
      (main cfg w fuel).1 = true ∧
      post = o.report ++
        (if s = .upload then [.print .uploadFailed]
          else if s = .jobCreate then [.print .jobCreationFailed] else []) ∧
      o.report ≠ [] ∧ ∀ e ∈ post, e.isHttp = false) ∧
    ((answer w (sent st) (fileStatusRequest cfg id)).failed = true →
      pollLoop (isFileProcessed cfg w id) .waitingFile (n + 1) st =
        pollLoop (isFileProcessed cfg w id) .waitingFile n
          (st ++ .http .filePoll (fileStatusRequest cfg id)
              (answer w (sent st) (fileStatusRequest cfg id)) ::
            (answer w (sent st) (fileStatusRequest cfg id)).report ++
            [.print .waitingFile, .sleep])) ∧
    ((answer w (sent st) (jobStatusRequest cfg id)).failed = true →
      waitForJob cfg w id (n + 1) st =
        waitForJob cfg w id n
          (st ++ .http .jobPoll (jobStatusRequest cfg id)
              (answer w (sent st) (jobStatusRequest cfg id)) ::
            (answer w (sent st) (jobStatusRequest cfg id)).report ++
            [.print .waitingJob, .sleep])) := by
  refine ⟨fun h hfail hs => ?_, fun hfail => ?_, fun hfail => ?_⟩
  · have hq : (Event.http s r o).failedOnce = true := by
      rcases hs with rfl | rfl | rfl <;> simpa [Event.failedOnce] using hfail
    obtain ⟨hret, hpost⟩ := main_cut_failedOnce cfg w fuel pre post s r o h hq
    refine ⟨hret, hpost, report_ne_nil o hfail, ?_⟩
    intro e he
    rw [hpost] at he
    simp only [List.mem_append] at he
    rcases he with he | he
    · exact report_not_http o e he
    · split at he
      · simp only [List.mem_singleton] at he; rw [he]; rfl
      · split at he
        · simp only [List.mem_singleton] at he; rw [he]; rfl
        · simp at he
  · rw [pollLoop_succ, isFileProcessed_eq]
    have hno : (answer w (sent st) (fileStatusRequest cfg id)).field "status" = "" := by
      generalize answer w (sent st) (fileStatusRequest cfg id) = o1 at hfail
      cases o1 <;> simp_all [Outcome.field, Outcome.failed]
    simp [hno]
  · unfold waitForJob
    rw [pollLoop_succ, isJobReady_eq]
    have hno : (answer w (sent st) (jobStatusRequest cfg id)).field "status" = "" := by
      generalize answer w (sent st) (jobStatusRequest cfg id) = o1 at hfail
      cases o1 <;> simp_all [Outcome.field, Outcome.failed]
    simp [hno]

/-! ## The end-to-end scenario -/

/-- C5: in the end-to-end scenario (upload gives "file-1"; file status
"uploaded", "uploaded", "processed"; job creation gives "job-1"; job status
"running", then "succeeded" with the model "ft:model-x", also at the
retrieval), `main` returns for every bound that allows three checks, and its
run is: one upload, three file-status requests, one job creation, two
job-status requests in the job poll, one retrieval, in that order; the last
line printed reports the model, and its text contains "ft:model-x". -/
theorem end_to_end_run (n : Nat) :
    main testConfig endToEndWorld (n + 3) =
      (true,
        [.print .starting,
          .http .upload (uploadRequest testConfig endToEndWorld "data")
            (.body [("id", .string "file-1")]),
          .print (.fileUploaded "file-1"),
          .http .filePoll (fileStatusRequest testConfig "file-1")
            (.body [("id", .string "file-1"), ("status", .string "uploaded")]),
          .print .waitingFile, .sleep,
          .http .filePoll (fileStatusRequest testConfig "file-1")
            (.body [("id", .string "file-1"), ("status", .string "uploaded")]),
          .print .waitingFile, .sleep,
          .http .filePoll (fileStatusRequest testConfig "file-1")
            (.body [("id", .string "file-1"), ("status", .string "processed")]),
          .print .newline, .print .fileProcessingCompleted, .print .startingJob,
          .http .jobCreate (jobCreationRequest testConfig "file-1")
            (.body [("id", .string "job-1"), ("status", .string "queued")]),
          .print (.jobCreated "job-1"),
          .http .jobPoll (jobStatusRequest testConfig "job-1")
            (.body [("id", .string "job-1"), ("status", .string "running")]),
          .print .waitingJob, .sleep,
          .http .jobPoll (jobStatusRequest testConfig "job-1")
            (.body [("id", .string "job-1"), ("status", .string "succeeded"),
              ("fine_tuned_model", .string "ft:model-x")]),
          .print .newline, .print .jobCompleted, .print .elapsed,
          .http .retrieve (jobStatusRequest testConfig "job-1")
            (.body [("id", .string "job-1"), ("status", .string "succeeded"),
              ("fine_tuned_model", .string "ft:model-x")]),
          .print (.modelReady "ft:model-x")]) ∧
    sentSites (main testConfig endToEndWorld (n + 3)).2 =
      [.upload, .filePoll, .filePoll, .filePoll, .jobCreate, .jobPoll, .jobPoll, .retrieve] ∧
    sent (main testConfig endToEndWorld (n + 3)).2 =
      [uploadRequest testConfig endToEndWorld "data",
        fileStatusRequest testConfig "file-1", fileStatusRequest testConfig "file-1",
        fileStatusRequest testConfig "file-1", jobCreationRequest testConfig "file-1",
        jobStatusRequest testConfig "job-1", jobStatusRequest testConfig "job-1",
        jobStatusRequest testConfig "job-1"] ∧
    (main testConfig endToEndWorld (n + 3)).2.getLast? =
      some (.print (.modelReady "ft:model-x")) ∧
    "ft:model-x".toList <:+: (Msg.text (.modelReady "ft:model-x")).toList :=
  ⟨rfl, rfl, rfl, rfl, by decide⟩

/-! ## Two runs that contradict a claim as it is written -/

/-- C4, the run that contradicts it: the response to the result retrieval has
the member `fine_tuned_model`, with the value `null`, and the run ends with
the line "No fine-tuned model available." without having printed any model
name. -/
theorem present_null_model_is_not_reported :
    main testConfig nullModelWorld 1 =
      (true,
        [.print .starting,
          .http .upload (uploadRequest testConfig nullModelWorld "data")
            (.body [("id", .string "file-1")]),
          .print (.fileUploaded "file-1"),
          .http .filePoll (fileStatusRequest testConfig "file-1")
            (.body [("status", .string "processed")]),
          .print .newline, .print .fileProcessingCompleted, .print .startingJob,
          .http .jobCreate (jobCreationRequest testConfig "file-1")
            (.body [("id", .string "job-1")]),
          .print (.jobCreated "job-1"),
          .http .jobPoll (jobStatusRequest testConfig "job-1")
            (.body [("status", .string "succeeded"), ("fine_tuned_model", .null)]),
          .print .newline, .print .jobCompleted, .print .elapsed,
          .http .retrieve (jobStatusRequest testConfig "job-1")
            (.body [("status", .string "succeeded"), ("fine_tuned_model", .null)]),
          .print .noModel]) ∧
    ("fine_tuned_model", JValue.null) ∈
      ([("status", .string "succeeded"), ("fine_tuned_model", .null)] : Body) ∧
    (main testConfig nullModelWorld 1).2.all (fun e => !e.printsModel) = true :=
  ⟨by decide, by decide, by decide⟩

/-- C7, the run that contradicts it: the first file-status request fails at
the transport; the failure is reported, and the run goes on: the same request
is made again, and the job creation, the job-status request and the retrieval
follow. -/
theorem failed_status_request_is_retried :
    main testConfig flakyWorld 2 =
      (true,
        [.print .starting,
          .http .upload (uploadRequest testConfig flakyWorld "data")
            (.body [("id", .string "file-1")]),
          .print (.fileUploaded "file-1"),
          .http .filePoll (fileStatusRequest testConfig "file-1") .sendErr,
          .print .failedSend,
          .print .waitingFile, .sleep,
          .http .filePoll (fileStatusRequest testConfig "file-1")
            (.body [("status", .string "processed")]),
          .print .newline, .print .fileProcessingCompleted, .print .startingJob,
          .http .jobCreate (jobCreationRequest testConfig "file-1")
            (.body [("id", .string "job-1")]),
          .print (.jobCreated "job-1"),
          .http .jobPoll (jobStatusRequest testConfig "job-1")
            (.body [("status", .string "succeeded"),
              ("fine_tuned_model", .string "ft:model-x")]),
          .print .newline, .print .jobCompleted, .print .elapsed,
          .http .retrieve (jobStatusRequest testConfig "job-1")
            (.body [("status", .string "succeeded"),
              ("fine_tuned_model", .string "ft:model-x")]),
          .print (.modelReady "ft:model-x")]) ∧
    sentSites (main testConfig flakyWorld 2).2 =
      [.upload, .filePoll, .filePoll, .jobCreate, .jobPoll, .retrieve] :=
  ⟨by decide, by decide⟩

/-- C10, the command lines that contradict it.  With `-h` both values are
empty and the process ends with exit code 0.  With `-file` alone the value of
`-file` is missing and the process ends with exit code 2.  With both values
given and an unknown flag after them, both values are non-empty and the
process still ends at start-up, with exit code 2. -/
theorem startup_exit_is_not_always_one :
    ((flagParse ["-h"] noFlags).2 = { filePath := "", token := "" } ∧
      program ["-h"] endToEndWorld 3 = (some 0, [.print .usage])) ∧
    ((flagParse ["-file"] noFlags).2 = { filePath := "", token := "" } ∧
      program ["-file"] endToEndWorld 3 =
        (some 2, [.print (.flagNeedsArgument "file"), .print .usage])) ∧
    ((flagParse ["-file", "a", "-token", "b", "-bogus"] noFlags).2 =
        { filePath := "a", token := "b" } ∧
      program ["-file", "a", "-token", "b", "-bogus"] endToEndWorld 3 =
        (some 2, [.print (.flagNotDefined "bogus"), .print .usage])) :=
  ⟨⟨by decide, by decide⟩, ⟨by decide, by decide⟩, ⟨by decide, by decide⟩⟩

/-! ## The theorems at concrete runs -/

theorem poll_exits_iff_terminal_status_witness :
    (answer endToEndWorld (sent []) (fileStatusRequest testConfig "file-1") =
        .body [("id", .string "file-1"), ("status", .string "uploaded")] ∧
      ∃ o rest, (pollLoop (isFileProcessed testConfig endToEndWorld "file-1") .waitingFile
          (0 + 2) []).2 =
        [] ++ [.http .filePoll (fileStatusRequest testConfig "file-1")
            (.body [("id", .string "file-1"), ("status", .string "uploaded")]),
          .print .waitingFile, .sleep,
          .http .filePoll (fileStatusRequest testConfig "file-1") o] ++ rest) ∧
    (answer flakyWorld (sent []) (jobStatusRequest testConfig "job-1") =
        .body [("status", .string "succeeded"), ("fine_tuned_model", .string "ft:model-x")] ∧
      waitForJob testConfig flakyWorld "job-1" (0 + 1) [] =
        (true, [] ++ [.http .jobPoll (jobStatusRequest testConfig "job-1")
            (.body [("status", .string "succeeded"),
              ("fine_tuned_model", .string "ft:model-x")]),
          .print .newline])) ∧
    (gjsonString (gjsonGet [("error", .string "invalid training file")] "status") ≠
        "processed" ∧
      gjsonString (gjsonGet [("error", .string "invalid training file")] "status") ≠
        "succeeded") :=
  ⟨⟨by decide,
      ((poll_exits_iff_terminal_status testConfig endToEndWorld "file-1" [] 0
        [("id", .string "file-1"), ("status", .string "uploaded")]).1 (by decide)).2
        (by decide)⟩,
    ⟨by decide,
      ((poll_exits_iff_terminal_status testConfig flakyWorld "job-1" [] 0
        [("status", .string "succeeded"), ("fine_tuned_model", .string "ft:model-x")]).2.1
        (by decide)).1.mpr (by decide)⟩,
    (poll_exits_iff_terminal_status testConfig rejectedJobWorld "job-1" [] 0
      [("error", .string "invalid training file")]).2.2 (fun v => by simp)⟩

theorem waitForJob_returns_after_N_plus_one_witness :
    ∃ st1, waitForJob testConfig endToEndWorld "job-1" (1 + 1 + 0) [] = (true, st1) ∧
      sent st1 = sent [] ++ List.replicate (1 + 1) (jobStatusRequest testConfig "job-1") ∧
      sentSites st1 = sentSites [] ++ List.replicate (1 + 1) Site.jobPoll :=
  waitForJob_returns_after_N_plus_one testConfig endToEndWorld "job-1" [] 1 0
    (fun i hi => by
      have hi0 : i = 0 := by omega
      subst hi0
      exact ⟨[("id", .string "job-1"), ("status", .string "running")], by decide, by decide⟩)
    ⟨[("id", .string "job-1"), ("status", .string "succeeded"),
      ("fine_tuned_model", .string "ft:model-x")], by decide, by decide⟩

theorem upload_without_id_aborts_witness :
    (uploadFile testConfig rejectedUploadWorld [.print .starting]).1 = "" ∧
    main testConfig rejectedUploadWorld 5 = (true, [.print .starting,
      .http .upload (uploadRequest testConfig rejectedUploadWorld "data")
        (.body [("error", .string "invalid api key")]), .print .uploadFailed]) ∧
    sent (main testConfig rejectedUploadWorld 5).2 =
      [uploadRequest testConfig rejectedUploadWorld "data"] ∧
    sentSites (main testConfig rejectedUploadWorld 5).2 = [Site.upload] :=
  upload_without_id_aborts testConfig rejectedUploadWorld 5 "data"
    [("error", .string "invalid api key")] rfl (by decide) (fun v => by simp)

theorem final_report_follows_model_string_witness :
    gjsonString (gjsonGet [("status", .string "succeeded")] "fine_tuned_model") = "" ∧
    ([Event.print .noModel] = [.print .noModel] ∧
      Msg.text .noModel = "No fine-tuned model available.\n" ∧
      ∀ e ∈ (main testConfig nullModelWorld 1).2, e.printsModel = false) ∧
    ([Event.print (.modelReady "ft:model-x")] =
        [.print (.modelReady (gjsonString (gjsonGet
          [("id", .string "job-1"), ("status", .string "succeeded"),
            ("fine_tuned_model", .string "ft:model-x")] "fine_tuned_model")))] ∧
      Msg.text (.modelReady (gjsonString (gjsonGet
          [("id", .string "job-1"), ("status", .string "succeeded"),
            ("fine_tuned_model", .string "ft:model-x")] "fine_tuned_model"))) =
        "\nFine-tuned model ready to use: " ++ gjsonString (gjsonGet
          [("id", .string "job-1"), ("status", .string "succeeded"),
            ("fine_tuned_model", .string "ft:model-x")] "fine_tuned_model") ++ "\n") :=
  ⟨(final_report_follows_model_string testConfig missingModelWorld 1
      ((main testConfig missingModelWorld 1).2.take 13) [.print .noModel]
      (jobStatusRequest testConfig "job-1") [("status", .string "succeeded")]
      (by decide)).1 (fun v => by simp),
    (final_report_follows_model_string testConfig nullModelWorld 1
      ((main testConfig nullModelWorld 1).2.take 13) [.print .noModel]
      (jobStatusRequest testConfig "job-1")
      [("status", .string "succeeded"), ("fine_tuned_model", .null)]
      (by decide)).2.1 (by decide),
    (final_report_follows_model_string testConfig endToEndWorld 3
      ((main testConfig endToEndWorld 3).2.take 22) [.print (.modelReady "ft:model-x")]
      (jobStatusRequest testConfig "job-1")
      [("id", .string "job-1"), ("status", .string "succeeded"),
        ("fine_tuned_model", .string "ft:model-x")]
      (by decide)).2.2 (by decide)⟩

theorem identifiers_flow_unmodified_witness :
    (fileStatusRequest testConfig "file-1").url =
      "https://api.openai.com/v1/files/" ++
        gjsonString (gjsonGet [("id", .string "file-1")] "id") ∧
    (jobCreationRequest testConfig "file-1").body =
      .json [("training_file", gjsonString (gjsonGet [("id", .string "file-1")] "id")),
        ("model", "gpt-3.5-turbo-0613")] ∧
    (jobStatusRequest testConfig "job-1").url =
      "https://api.openai.com/v1/fine_tuning/jobs/" ++
        gjsonString (gjsonGet [("id", .string "job-1"), ("status", .string "queued")] "id") ∧
    ∃ ru bu rc bc, Event.http .upload ru (.body bu) ∈ (main testConfig endToEndWorld 3).2 ∧
      Event.http .jobCreate rc (.body bc) ∈ (main testConfig endToEndWorld 3).2 ∧
      gjsonString (gjsonGet bu "id") ≠ "" ∧ gjsonString (gjsonGet bc "id") ≠ "" ∧
      ∃ r o, Event.http .retrieve r o ∈ (main testConfig endToEndWorld 3).2 :=
  ⟨((identifiers_flow_unmodified testConfig endToEndWorld 3).1
      (uploadRequest testConfig endToEndWorld "data") [("id", .string "file-1")]
      (by decide)).1 (fileStatusRequest testConfig "file-1")
      (.body [("id", .string "file-1"), ("status", .string "processed")]) (by decide),
    ((identifiers_flow_unmodified testConfig endToEndWorld 3).1
      (uploadRequest testConfig endToEndWorld "data") [("id", .string "file-1")]
      (by decide)).2 (jobCreationRequest testConfig "file-1")
      (.body [("id", .string "job-1"), ("status", .string "queued")]) (by decide),
    ((identifiers_flow_unmodified testConfig endToEndWorld 3).2.1
      (jobCreationRequest testConfig "file-1")
      [("id", .string "job-1"), ("status", .string "queued")] (by decide)).2
      (jobStatusRequest testConfig "job-1")
      (.body [("id", .string "job-1"), ("status", .string "succeeded"),
        ("fine_tuned_model", .string "ft:model-x")]) (by decide),
    (identifiers_flow_unmodified testConfig endToEndWorld 3).2.2 (by decide)⟩

theorem failed_request_handling_witness :
    ((main testConfig downWorld 1).1 = true ∧
      [Event.print .failedSend, .print .uploadFailed] =
        Outcome.sendErr.report ++
          (if Site.upload = .upload then [.print .uploadFailed]
            else if Site.upload = .jobCreate then [.print .jobCreationFailed] else []) ∧
      Outcome.sendErr.report ≠ [] ∧
      ∀ e ∈ [Event.print .failedSend, .print .uploadFailed], e.isHttp = false) ∧
    pollLoop (isFileProcessed testConfig flakyWorld "file-1") .waitingFile (1 + 1) [] =
      pollLoop (isFileProcessed testConfig flakyWorld "file-1") .waitingFile 1
        ([] ++ .http .filePoll (fileStatusRequest testConfig "file-1")
            (answer flakyWorld (sent []) (fileStatusRequest testConfig "file-1")) ::
          (answer flakyWorld (sent []) (fileStatusRequest testConfig "file-1")).report ++
          [.print .waitingFile, .sleep]) ∧
    waitForJob testConfig downWorld "job-1" (1 + 1) [] =
      waitForJob testConfig downWorld "job-1" 1
        ([] ++ .http .jobPoll (jobStatusRequest testConfig "job-1")
            (answer downWorld (sent []) (jobStatusRequest testConfig "job-1")) ::
          (answer downWorld (sent []) (jobStatusRequest testConfig "job-1")).report ++
          [.print .waitingJob, .sleep]) :=
  ⟨(failed_request_handling testConfig downWorld 1 [.print .starting]
      [.print .failedSend, .print .uploadFailed] .upload
      (uploadRequest testConfig downWorld "data") .sendErr "file-1" [] 1).1
      (by decide) rfl (Or.inl rfl),
    (failed_request_handling testConfig flakyWorld 1 [] [] .upload
      (uploadRequest testConfig flakyWorld "data") .sendErr "file-1" [] 1).2.1 (by decide),
    (failed_request_handling testConfig downWorld 1 [] [] .upload
      (uploadRequest testConfig downWorld "data") .sendErr "job-1" [] 1).2.2 (by decide)⟩

theorem every_request_carries_bearer_token_witness :
    (Event.http .retrieve (jobStatusRequest testConfig "job-1")
        (.body [("id", .string "job-1"), ("status", .string "succeeded"),
          ("fine_tuned_model", .string "ft:model-x")]) ∈
        (main testConfig endToEndWorld 3).2 ∧
      List.lookup "Authorization" (jobStatusRequest testConfig "job-1").header =
        some ["Bearer " ++ testConfig.token]) ∧
    (Event.http .retrieve (jobStatusRequest testConfig "job-1")
        (.body [("id", .string "job-1"), ("status", .string "succeeded"),
          ("fine_tuned_model", .string "ft:model-x")]) ∈
        (program testArgs endToEndWorld 3).2 ∧
      List.lookup "Authorization" (jobStatusRequest testConfig "job-1").header =
        some ["Bearer " ++ (flagParse testArgs noFlags).2.token]) :=
  ⟨⟨by decide,
      (every_request_carries_bearer_token testConfig testArgs endToEndWorld 3 .retrieve
        (jobStatusRequest testConfig "job-1")
        (.body [("id", .string "job-1"), ("status", .string "succeeded"),
          ("fine_tuned_model", .string "ft:model-x")])).1 (by decide)⟩,
    ⟨by decide,
      (every_request_carries_bearer_token testConfig testArgs endToEndWorld 3 .retrieve
        (jobStatusRequest testConfig "job-1")
        (.body [("id", .string "job-1"), ("status", .string "succeeded"),
          ("fine_tuned_model", .string "ft:model-x")])).2 (by decide)⟩⟩

theorem job_creation_request_and_result_witness :
    (main testConfig rejectedJobWorld 1).1 = true ∧
    [Event.print .jobCreationFailed] = [.print .jobCreationFailed] ∧
    ∀ s r1 o1, Event.http s r1 o1 ∈ (main testConfig rejectedJobWorld 1).2 →
      s ≠ .jobPoll ∧ s ≠ .retrieve :=
  (job_creation_request_and_result testConfig rejectedJobWorld "file-1" [] 1).2
    ((main testConfig rejectedJobWorld 1).2.take 7)
    (jobCreationRequest testConfig "file-1")
    [("error", .string "invalid training file")] [.print .jobCreationFailed]
    (by decide) (fun v => by simp)

theorem startup_exit_codes_witness :
    ((init ["-file", "train.jsonl"]).1 = some 1 ∧
      program ["-file", "train.jsonl"] endToEndWorld 3 =
        (some 1, [.print .failedToStart, .print .usage]) ∧
      sent (program ["-file", "train.jsonl"] endToEndWorld 3).2 = []) ∧
    ((init testArgs).1 = none ∧
      (program testArgs endToEndWorld 3).2 = (main testConfig endToEndWorld 3).2) ∧
    ((init ["-help"]).1 = some 0 ∧
      program ["-help"] endToEndWorld 3 = (some 0, [.print .usage])) ∧
    ((init ["-token"]).1 = some 2 ∧ (program ["-token"] endToEndWorld 3).1 = some 2 ∧
      sent (program ["-token"] endToEndWorld 3).2 = [] ∧
      ∀ e ∈ (program ["-token"] endToEndWorld 3).2, e.isHttp = false) :=
  ⟨(startup_exit_codes ["-file", "train.jsonl"] endToEndWorld 3
      { filePath := "train.jsonl", token := "" }).1 (by decide) (Or.inr rfl),
    (startup_exit_codes testArgs endToEndWorld 3 testConfig).2.1 (by decide) (by decide)
      (by decide),
    (startup_exit_codes ["-help"] endToEndWorld 3 noFlags).2.2.1 (by decide),
    (startup_exit_codes ["-token"] endToEndWorld 3 noFlags).2.2.2 (by decide) (by decide)⟩

end FineTune
